import Mathlib

/-!
Verification of the Comic Chat IRC server core (src/server.ts).

The TypeScript source is shallowly embedded as pure Lean functions:

* JS `Map` objects (socket → client, channel name → channel) become
  association lists with insertion-order semantics (`alistGet`, `alistSet`,
  `alistDel`).  Sockets are identified by natural-number connection ids,
  which faithfully models JS object identity of sockets and clients.
* JS `Set` objects become duplicate-free lists in insertion order
  (`setAdd`, `setDel`).
* Handlers return the updated server state together with the list of
  `(recipient id, line)` pairs written by `send` (socket writability, an
  IO-level concern, is modelled as always-writable).
* JS truthiness of possibly-`undefined` string fields is modelled by
  `jsTruthy`; template interpolation of such fields by `jsStr`
  (`undefined` prints as "undefined"); `x || d` by `jsOr`.
* `String.prototype.split(' ')`, `toUpperCase`, `substring(1)` and
  `startsWith` are re-implemented on character lists (`jsSplit`,
  `jsToUpper`, `jsSubstr1`, ...) so that they compute by structural
  recursion; on the single-byte (latin1) ASCII lines the server exchanges
  these agree with the JS operations.
-/

namespace ComicChat

/-- JS truthiness of an optional string: `undefined` and `""` are falsy. -/
def jsTruthy : Option String → Bool
  | some s => !(s == "")
  | none => false

/-- JS template interpolation of an optional string: `undefined` prints
as "undefined". -/
def jsStr : Option String → String
  | some s => s
  | none => "undefined"

/-- JS `x || d` on an optional string `x`. -/
def jsOr (o : Option String) (d : String) : String :=
  if jsTruthy o then jsStr o else d

/-- Helper for `jsSplit`: splits the remaining characters at every
occurrence of `sep`, JS-style (adjacent separators yield empty fields). -/
def splitFieldsAux (sep : Char) : List Char → List Char → List String
  | [], acc => [String.mk acc.reverse]
  | c :: rest, acc =>
    if c = sep then String.mk acc.reverse :: splitFieldsAux sep rest []
    else splitFieldsAux sep rest (c :: acc)

/-- JS `s.split(sep)` for a single-character separator. -/
def jsSplit (s : String) (sep : Char) : List String :=
  splitFieldsAux sep s.data []

/-- JS `s.toUpperCase()` restricted to ASCII case mapping. -/
def jsToUpper (s : String) : String :=
  String.mk (s.data.map Char.toUpper)

/-- JS `s.substring(1)`. -/
def jsSubstr1 (s : String) : String :=
  String.mk (s.data.drop 1)

/-- JS `s.startsWith('#')`. -/
def hashTarget (s : String) : Bool :=
  match s.data with
  | c :: _ => c = '#'
  | [] => false

/-- JS `s.startsWith(':')`. -/
def colonStart (s : String) : Bool :=
  match s.data with
  | c :: _ => c = ':'
  | [] => false

/-- Association-list lookup, mirroring JS `Map.get`. -/
def alistGet {α β : Type} [DecidableEq α] : List (α × β) → α → Option β
  | [], _ => none
  | (k, v) :: rest, k' => if k = k' then some v else alistGet rest k'

/-- Association-list update, mirroring JS `Map.set`: replaces the value in
place if the key is present, otherwise appends (insertion order). -/
def alistSet {α β : Type} [DecidableEq α] : List (α × β) → α → β → List (α × β)
  | [], k, v => [(k, v)]
  | (k0, v0) :: rest, k, v =>
    if k0 = k then (k, v) :: rest else (k0, v0) :: alistSet rest k v

/-- Association-list deletion, mirroring JS `Map.delete`. -/
def alistDel {α β : Type} [DecidableEq α] : List (α × β) → α → List (α × β)
  | [], _ => []
  | (k0, v0) :: rest, k =>
    if k0 = k then alistDel rest k else (k0, v0) :: alistDel rest k

/-- JS `Set.add`: appends unless already present. -/
def setAdd {α : Type} [DecidableEq α] (s : List α) (x : α) : List α :=
  if x ∈ s then s else s ++ [x]

/-- JS `Set.delete`. -/
def setDel {α : Type} [DecidableEq α] : List α → α → List α
  | [], _ => []
  | y :: rest, x => if y = x then setDel rest x else y :: setDel rest x

/-- The `IRCClient` record of the source, minus the raw socket handle
(represented externally by the connection id keying the registry). -/
structure Client where
  nickname : Option String := none
  username : Option String := none
  realname : Option String := none
  hostname : String := "unknown"
  registered : Bool := false
  channels : List String := []
deriving Repr, DecidableEq

/-- The `IRCChannel` record of the source; members are connection ids. -/
structure Channel where
  name : String
  clients : List Nat
  topic : Option String
deriving Repr, DecidableEq

/-- The two top-level maps of `IRCServer`. -/
structure ServerState where
  clients : List (Nat × Client) := []
  channels : List (String × Channel) := []
deriving Repr, DecidableEq

def serverName : String := "irc.comicserver.local"

def serverVersion : String := "1.0.0"

/-- Lines written by the server: `(recipient connection id, line)` pairs in
emission order (the trailing CRLF added by `send` is left implicit). -/
abbrev Output := List (Nat × String)

/-- `send(client, message)` (writability is modelled as always true). -/
def sendTo (cid : Nat) (line : String) : Output := [(cid, line)]

/-- `sendReply(client, code, message)`; note the `client.nickname || '*'`. -/
def replyTo (c : Client) (cid : Nat) (code msg : String) : Output :=
  [(cid, ":" ++ serverName ++ " " ++ code ++ " " ++ jsOr c.nickname "*" ++ " " ++ msg)]

/-- The `:nick!user@host` source mask used by broadcast lines. -/
def maskOf (c : Client) : String :=
  ":" ++ jsStr c.nickname ++ "!" ++ jsStr c.username ++ "@" ++ c.hostname

/-- `broadcastToChannel(channel, message, excludeClient?)`. -/
def broadcastToChannel (ch : Channel) (msg : String) (exclude : Option Nat) : Output :=
  ch.clients.filterMap (fun m => if exclude = some m then none else some (m, msg))

/-- `findClientByNickname(nickname)`: first registry entry (in insertion
order) whose nickname strictly equals the argument. -/
def findClientByNickname (st : ServerState) (nickname : String) : Option (Nat × Client) :=
  st.clients.find? (fun p => p.2.nickname == some nickname)

def getClient (st : ServerState) (cid : Nat) : Client :=
  (alistGet st.clients cid).getD {}

def setClient (st : ServerState) (cid : Nat) (c : Client) : ServerState :=
  { st with clients := alistSet st.clients cid c }

/-- The nickname-collision scan at the top of `handleNick`: some *other*
connection whose nickname strictly equals the requested one. -/
def nickInUse (st : ServerState) (cid : Nat) (n : String) : Bool :=
  st.clients.any (fun p => decide (p.1 ≠ cid) && p.2.nickname == some n)

/-- `checkRegistration(client)`: promote and emit the four welcome lines
when unregistered with truthy nickname and username. -/
def checkRegistration (st : ServerState) (cid : Nat) : ServerState × Output :=
  match alistGet st.clients cid with
  | none => (st, [])
  | some c =>
    if c.registered = false ∧ jsTruthy c.nickname ∧ jsTruthy c.username then
      let c1 := { c with registered := true }
      (setClient st cid c1,
        replyTo c1 cid "001" (":Welcome to the Comic Chat IRC Network " ++ jsStr c1.nickname
          ++ "!" ++ jsStr c1.username ++ "@" ++ c1.hostname)
        ++ replyTo c1 cid "002" (":Your host is " ++ serverName ++ ", running version " ++ serverVersion)
        ++ replyTo c1 cid "003" ":This server was created for Microsoft Comic Chat compatibility"
        ++ replyTo c1 cid "004" (serverName ++ " " ++ serverVersion ++ " - -"))
    else (st, [])

/-- `handleUser`. -/
def handleUser (st : ServerState) (cid : Nat) (parts : List String) : ServerState × Output :=
  match alistGet st.clients cid with
  | none => (st, [])
  | some c =>
    if parts.length < 5 then (st, replyTo c cid "461" "USER :Not enough parameters")
    else
      let c1 := { c with
        username := some (parts.getD 1 ""),
        realname := some (jsSubstr1 (String.intercalate " " (parts.drop 4))) }
      checkRegistration (setClient st cid c1) cid

/-- `handleNick`. -/
def handleNick (st : ServerState) (cid : Nat) (parts : List String) : ServerState × Output :=
  match alistGet st.clients cid with
  | none => (st, [])
  | some c =>
    if parts.length < 2 then (st, replyTo c cid "431" ":No nickname given")
    else
      let newNick := parts.getD 1 ""
      if nickInUse st cid newNick then
        (st, replyTo c cid "433" (newNick ++ " :Nickname is already in use"))
      else
        let oldNick := c.nickname
        let c1 := { c with nickname := some newNick }
        let st1 := setClient st cid c1
        let out :=
          if c1.registered = true ∧ jsTruthy oldNick then
            c1.channels.flatMap (fun name =>
              match alistGet st1.channels name with
              | some ch =>
                broadcastToChannel ch
                  (":" ++ jsStr oldNick ++ "!" ++ jsStr c1.username ++ "@" ++ c1.hostname
                    ++ " NICK :" ++ newNick) (some cid)
              | none => [])
          else []
        let r := checkRegistration st1 cid
        (r.1, out ++ r.2)

/-- The nickname of a member as it appears in the 353 names list: JS
`Array.join` renders `undefined` as the empty string. -/
def namesEntry (c : Client) : String :=
  match c.nickname with
  | some s => s
  | none => ""

/-- `handleJoin`. -/
def handleJoin (st : ServerState) (cid : Nat) (parts : List String) : ServerState × Output :=
  match alistGet st.clients cid with
  | none => (st, [])
  | some c =>
    if c.registered = false then (st, replyTo c cid "451" ":You have not registered")
    else if parts.length < 2 then (st, replyTo c cid "461" "JOIN :Not enough parameters")
    else
      let channelName := parts.getD 1 ""
      if hashTarget channelName = false then
        (st, replyTo c cid "403" (channelName ++ " :No such channel"))
      else
        let ch0 :=
          match alistGet st.channels channelName with
          | some ch => ch
          | none => { name := channelName, clients := [], topic := none }
        let st1 :=
          match alistGet st.channels channelName with
          | some _ => st
          | none => { st with channels := alistSet st.channels channelName ch0 }
        if cid ∈ ch0.clients then (st1, [])
        else
          let ch1 := { ch0 with clients := setAdd ch0.clients cid }
          let st2 := { st1 with channels := alistSet st1.channels channelName ch1 }
          let c1 := { c with channels := setAdd c.channels channelName }
          let st3 := setClient st2 cid c1
          let names := String.intercalate " " (ch1.clients.map (fun m => namesEntry (getClient st3 m)))
          (st3,
            sendTo cid (maskOf c1 ++ " JOIN :" ++ channelName)
            ++ (if jsTruthy ch1.topic then
                  replyTo c1 cid "332" (channelName ++ " :" ++ jsStr ch1.topic)
                else [])
            ++ replyTo c1 cid "353" ("= " ++ channelName ++ " :" ++ names)
            ++ replyTo c1 cid "366" (channelName ++ " :End of /NAMES list")
            ++ broadcastToChannel ch1 (maskOf c1 ++ " JOIN :" ++ channelName) (some cid))

/-- `handlePart`. -/
def handlePart (st : ServerState) (cid : Nat) (parts : List String) : ServerState × Output :=
  match alistGet st.clients cid with
  | none => (st, [])
  | some c =>
    if c.registered = false then (st, replyTo c cid "451" ":You have not registered")
    else if parts.length < 2 then (st, replyTo c cid "461" "PART :Not enough parameters")
    else
      let channelName := parts.getD 1 ""
      match alistGet st.channels channelName with
      | none => (st, replyTo c cid "442" (channelName ++ " :You\x27re not on that channel"))
      | some ch =>
        if cid ∈ ch.clients then
          let partMessage := String.intercalate " " (parts.drop 2)
          let fullMessage :=
            if partMessage == "" then ""
            else " :" ++ (if colonStart partMessage then jsSubstr1 partMessage else partMessage)
          let out := broadcastToChannel ch (maskOf c ++ " PART " ++ channelName ++ fullMessage) none
          let ch1 := { ch with clients := setDel ch.clients cid }
          let c1 := { c with channels := setDel c.channels channelName }
          let st1 := setClient st cid c1
          let st2 :=
            if ch1.clients.isEmpty then { st1 with channels := alistDel st1.channels channelName }
            else { st1 with channels := alistSet st1.channels channelName ch1 }
          (st2, out)
        else (st, replyTo c cid "442" (channelName ++ " :You\x27re not on that channel"))

/-- `handlePrivmsg`. -/
def handlePrivmsg (st : ServerState) (cid : Nat) (parts : List String) : ServerState × Output :=
  match alistGet st.clients cid with
  | none => (st, [])
  | some c =>
    if c.registered = false then (st, replyTo c cid "451" ":You have not registered")
    else if parts.length < 3 then (st, replyTo c cid "461" "PRIVMSG :Not enough parameters")
    else
      let target := parts.getD 1 ""
      let message := jsSubstr1 (String.intercalate " " (parts.drop 2))
      if hashTarget target then
        match alistGet st.channels target with
        | some ch =>
          if cid ∈ ch.clients then
            (st, broadcastToChannel ch (maskOf c ++ " PRIVMSG " ++ target ++ " :" ++ message) (some cid))
          else (st, replyTo c cid "404" (target ++ " :Cannot send to channel"))
        | none => (st, replyTo c cid "404" (target ++ " :Cannot send to channel"))
      else
        match findClientByNickname st target with
        | none => (st, replyTo c cid "401" (target ++ " :No such nick/channel"))
        | some t => (st, sendTo t.1 (maskOf c ++ " PRIVMSG " ++ target ++ " :" ++ message))

/-- `handlePing` (note: no registration gate in the source). -/
def handlePing (st : ServerState) (cid : Nat) (parts : List String) : ServerState × Output :=
  match alistGet st.clients cid with
  | none => (st, [])
  | some c =>
    if parts.length < 2 then (st, replyTo c cid "461" "PING :Not enough parameters")
    else (st, sendTo cid ("PONG " ++ serverName ++ " :" ++ parts.getD 1 ""))

/-- One iteration of the `removeClient` channel loop: drop `cid` from the
member set of the channel called `name` (if any) and delete the channel
when that leaves the member set empty. -/
def detachOne (chs : List (String × Channel)) (cid : Nat) (name : String) :
    List (String × Channel) :=
  match alistGet chs name with
  | some ch =>
    let ch1 := { ch with clients := setDel ch.clients cid }
    if ch1.clients.isEmpty then alistDel chs name else alistSet chs name ch1
  | none => chs

/-- The whole `removeClient` channel loop (`client.channels.forEach`). -/
def detachChannels (chs : List (String × Channel)) (cid : Nat) : List String → List (String × Channel)
  | [] => chs
  | name :: rest => detachChannels (detachOne chs cid name) cid rest

/-- `removeClient`: detach from every occupied channel, then delete the
registry entry.  Performs no sends (`socket.destroy` is IO-only). -/
def removeClient (st : ServerState) (cid : Nat) : ServerState :=
  match alistGet st.clients cid with
  | none => st
  | some c =>
    { clients := alistDel st.clients cid,
      channels := detachChannels st.channels cid c.channels }

/-- `handleQuit`: broadcast a quit notice to every occupied channel
(sender excluded), then run `removeClient`. -/
def handleQuit (st : ServerState) (cid : Nat) (parts : List String) : ServerState × Output :=
  match alistGet st.clients cid with
  | none => (st, [])
  | some c =>
    let m := jsSubstr1 (String.intercalate " " (parts.drop 1))
    let quitMessage := if m == "" then "Client Quit" else m
    let out := c.channels.flatMap (fun name =>
      match alistGet st.channels name with
      | some ch => broadcastToChannel ch (maskOf c ++ " QUIT :" ++ quitMessage) (some cid)
      | none => [])
    (removeClient st cid, out)

/-- The 352 WHO entry for one channel member. -/
def whoLine (requester : Client) (cid : Nat) (target : String) (mc : Client) : Output :=
  replyTo requester cid "352" (target ++ " " ++ jsStr mc.username ++ " " ++ mc.hostname
    ++ " " ++ serverName ++ " " ++ jsStr mc.nickname ++ " H :0 " ++ jsStr mc.realname)

/-- `handleWho` (members with a falsy nickname are skipped). -/
def handleWho (st : ServerState) (cid : Nat) (parts : List String) : ServerState × Output :=
  match alistGet st.clients cid with
  | none => (st, [])
  | some c =>
    if c.registered = false then (st, replyTo c cid "451" ":You have not registered")
    else if parts.length < 2 then (st, replyTo c cid "315" "* :End of /WHO list")
    else
      let target := parts.getD 1 ""
      let entries :=
        if hashTarget target then
          match alistGet st.channels target with
          | some ch =>
            if cid ∈ ch.clients then
              ch.clients.flatMap (fun m =>
                let mc := getClient st m
                if jsTruthy mc.nickname then whoLine c cid target mc else [])
            else []
          | none => []
        else []
      (st, entries ++ replyTo c cid "315" (target ++ " :End of /WHO list"))

/-- `handleWhois`. -/
def handleWhois (st : ServerState) (cid : Nat) (parts : List String) : ServerState × Output :=
  match alistGet st.clients cid with
  | none => (st, [])
  | some c =>
    if c.registered = false then (st, replyTo c cid "451" ":You have not registered")
    else if parts.length < 2 then (st, replyTo c cid "431" ":No nickname given")
    else
      let target := parts.getD 1 ""
      match findClientByNickname st target with
      | none => (st, replyTo c cid "401" (target ++ " :No such nick/channel"))
      | some t =>
        let chansStr := String.intercalate " " t.2.channels
        (st,
          replyTo c cid "311" (target ++ " " ++ jsStr t.2.username ++ " " ++ t.2.hostname
            ++ " * :" ++ jsStr t.2.realname)
          ++ (if chansStr == "" then [] else replyTo c cid "319" (target ++ " :" ++ chansStr))
          ++ replyTo c cid "312" (target ++ " " ++ serverName ++ " :Comic Chat IRC Server")
          ++ replyTo c cid "318" (target ++ " :End of /WHOIS list"))

/-- `handleList`. -/
def handleList (st : ServerState) (cid : Nat) (_parts : List String) : ServerState × Output :=
  match alistGet st.clients cid with
  | none => (st, [])
  | some c =>
    if c.registered = false then (st, replyTo c cid "451" ":You have not registered")
    else
      (st,
        replyTo c cid "321" "Channel :Users  Name"
        ++ st.channels.flatMap (fun p =>
             replyTo c cid "322" (p.2.name ++ " " ++ toString p.2.clients.length
               ++ " :" ++ jsOr p.2.topic ""))
        ++ replyTo c cid "323" ":End of /LIST")

/-- `handleTopic`. -/
def handleTopic (st : ServerState) (cid : Nat) (parts : List String) : ServerState × Output :=
  match alistGet st.clients cid with
  | none => (st, [])
  | some c =>
    if c.registered = false then (st, replyTo c cid "451" ":You have not registered")
    else if parts.length < 2 then (st, replyTo c cid "461" "TOPIC :Not enough parameters")
    else
      let channelName := parts.getD 1 ""
      match alistGet st.channels channelName with
      | none => (st, replyTo c cid "442" (channelName ++ " :You\x27re not on that channel"))
      | some ch =>
        if cid ∈ ch.clients then
          if parts.length = 2 then
            if jsTruthy ch.topic then
              (st, replyTo c cid "332" (channelName ++ " :" ++ jsStr ch.topic))
            else (st, replyTo c cid "331" (channelName ++ " :No topic is set"))
          else
            let topic := jsSubstr1 (String.intercalate " " (parts.drop 2))
            let ch1 := { ch with topic := some topic }
            ({ st with channels := alistSet st.channels channelName ch1 },
              broadcastToChannel ch1 (maskOf c ++ " TOPIC " ++ channelName ++ " :" ++ topic) none)
        else (st, replyTo c cid "442" (channelName ++ " :You\x27re not on that channel"))

/-- `handleMode`. -/
def handleMode (st : ServerState) (cid : Nat) (parts : List String) : ServerState × Output :=
  match alistGet st.clients cid with
  | none => (st, [])
  | some c =>
    if c.registered = false then (st, replyTo c cid "451" ":You have not registered")
    else if parts.length < 2 then (st, replyTo c cid "461" "MODE :Not enough parameters")
    else
      let target := parts.getD 1 ""
      if c.nickname == some target then
        if parts.length = 2 then (st, replyTo c cid "221" "+")
        else
          (st, sendTo cid (maskOf c ++ " MODE " ++ jsStr c.nickname ++ " " ++ parts.getD 2 ""))
      else if hashTarget target then
        match alistGet st.channels target with
        | none => (st, replyTo c cid "442" (target ++ " :You\x27re not on that channel"))
        | some ch =>
          if cid ∈ ch.clients then
            if parts.length = 2 then (st, replyTo c cid "324" (target ++ " +"))
            else
              let modes := String.intercalate " " (parts.drop 2)
              (st, broadcastToChannel ch (maskOf c ++ " MODE " ++ target ++ " " ++ modes) none)
          else (st, replyTo c cid "442" (target ++ " :You\x27re not on that channel"))
      else (st, replyTo c cid "401" (target ++ " :No such nick/channel"))

/-- `handleMessage`: split on single spaces, uppercase the verb, dispatch;
unknown verbs get a 421 reply. -/
def handleMessage (st : ServerState) (cid : Nat) (msg : String) : ServerState × Output :=
  match alistGet st.clients cid with
  | none => (st, [])
  | some c =>
    let parts := jsSplit msg ' '
    let command := jsToUpper (parts.getD 0 "")
    if command = "USER" then handleUser st cid parts
    else if command = "NICK" then handleNick st cid parts
    else if command = "JOIN" then handleJoin st cid parts
    else if command = "PART" then handlePart st cid parts
    else if command = "PRIVMSG" then handlePrivmsg st cid parts
    else if command = "PING" then handlePing st cid parts
    else if command = "QUIT" then handleQuit st cid parts
    else if command = "WHO" then handleWho st cid parts
    else if command = "WHOIS" then handleWhois st cid parts
    else if command = "LIST" then handleList st cid parts
    else if command = "TOPIC" then handleTopic st cid parts
    else if command = "MODE" then handleMode st cid parts
    else (st, replyTo c cid "421" (command ++ " :Unknown command"))

/-- Connection acceptance: a fresh client keyed by a fresh connection id
(socket objects are unique, so an id is never reused while present). -/
def connectClient (st : ServerState) (cid : Nat) (host : String) : ServerState :=
  match alistGet st.clients cid with
  | some _ => st
  | none =>
    let fresh : Client :=
      { nickname := none, username := none, realname := none,
        hostname := host, registered := false, channels := [] }
    { st with clients := alistSet st.clients cid fresh }

/-- The socket `close`/`error` event: the source only logs and calls
`removeClient`, which performs no sends. -/
def disconnectEvent (st : ServerState) (cid : Nat) : ServerState × Output :=
  (removeClient st cid, [])

/-- One external event driving the server. -/
inductive Op where
  | connect (cid : Nat) (host : String)
  | line (cid : Nat) (msg : String)
  | disconnect (cid : Nat)
deriving Repr, DecidableEq

def applyOp (st : ServerState) : Op → ServerState
  | .connect cid host => connectClient st cid host
  | .line cid msg => (handleMessage st cid msg).1
  | .disconnect cid => (disconnectEvent st cid).1

def initialState : ServerState := {}

/-- The state after serving a sequence of events from startup. -/
def runOps (ops : List Op) : ServerState :=
  ops.foldl applyOp initialState

/-! ### Association-list and set lemmas -/

theorem alistGet_set_self {α β : Type} [DecidableEq α] (m : List (α × β)) (k : α) (v : β) :
    alistGet (alistSet m k v) k = some v := by
  induction m with
  | nil => simp [alistSet, alistGet]
  | cons p rest ih =>
    obtain ⟨k0, v0⟩ := p
    by_cases h : k0 = k
    · simp [alistSet, h, alistGet]
    · simp [alistSet, h, alistGet, ih]

theorem alistGet_set_ne {α β : Type} [DecidableEq α] (m : List (α × β)) (k k' : α) (v : β)
    (h : k ≠ k') : alistGet (alistSet m k v) k' = alistGet m k' := by
  induction m with
  | nil => simp [alistSet, alistGet, h]
  | cons p rest ih =>
    obtain ⟨k0, v0⟩ := p
    by_cases h0 : k0 = k
    · subst h0
      simp [alistSet, alistGet, h]
    · simp only [alistSet, if_neg h0, alistGet]
      by_cases h1 : k0 = k'
      · simp [h1]
      · simp [h1, ih]

theorem alistGet_del_self {α β : Type} [DecidableEq α] (m : List (α × β)) (k : α) :
    alistGet (alistDel m k) k = none := by
  induction m with
  | nil => simp [alistDel, alistGet]
  | cons p rest ih =>
    obtain ⟨k0, v0⟩ := p
    by_cases h : k0 = k
    · simpa [alistDel, h] using ih
    · simpa [alistDel, alistGet, h] using ih

theorem alistGet_del_ne {α β : Type} [DecidableEq α] (m : List (α × β)) (k k' : α)
    (h : k ≠ k') : alistGet (alistDel m k) k' = alistGet m k' := by
  induction m with
  | nil => simp [alistDel, alistGet]
  | cons p rest ih =>
    obtain ⟨k0, v0⟩ := p
    by_cases h0 : k0 = k
    · subst h0
      have h1 : k0 ≠ k' := h
      simp [alistDel, alistGet, h1, ih]
    · by_cases h1 : k0 = k'
      · subst h1
        simp [alistDel, alistGet, h0]
      · simp [alistDel, alistGet, h0, h1, ih]

theorem mem_setAdd {α : Type} [DecidableEq α] (s : List α) (x y : α) :
    y ∈ setAdd s x ↔ y ∈ s ∨ y = x := by
  unfold setAdd
  by_cases h : x ∈ s
  · simp only [if_pos h]
    constructor
    · exact fun hy => Or.inl hy
    · rintro (hy | rfl) <;> [exact hy; exact h]
  · simp [if_neg h]

theorem setAdd_of_not_mem {α : Type} [DecidableEq α] {s : List α} {x : α} (h : x ∉ s) :
    setAdd s x = s ++ [x] := by
  simp [setAdd, h]

theorem nodup_setAdd {α : Type} [DecidableEq α] {s : List α} (x : α) (h : s.Nodup) :
    (setAdd s x).Nodup := by
  unfold setAdd
  by_cases hx : x ∈ s
  · simpa [hx] using h
  · rw [if_neg hx]
    refine List.Nodup.append h (List.nodup_singleton x) ?_
    intro a ha hb
    rcases List.mem_singleton.mp hb with rfl
    exact hx ha

theorem mem_setDel {α : Type} [DecidableEq α] (s : List α) (x y : α) :
    y ∈ setDel s x ↔ y ∈ s ∧ y ≠ x := by
  induction s with
  | nil => simp [setDel]
  | cons a rest ih =>
    by_cases h : a = x
    · subst h
      rw [setDel, if_pos rfl, ih]
      constructor
      · rintro ⟨hy, hne⟩
        exact ⟨List.mem_cons_of_mem _ hy, hne⟩
      · rintro ⟨hy, hne⟩
        rcases List.mem_cons.mp hy with rfl | hy'
        · exact absurd rfl hne
        · exact ⟨hy', hne⟩
    · rw [setDel, if_neg h]
      constructor
      · intro hy
        rcases List.mem_cons.mp hy with rfl | hy'
        · exact ⟨List.mem_cons_self _ _, h⟩
        · obtain ⟨hm, hne⟩ := ih.mp hy'
          exact ⟨List.mem_cons_of_mem _ hm, hne⟩
      · rintro ⟨hy, hne⟩
        rcases List.mem_cons.mp hy with rfl | hy'
        · exact List.mem_cons_self _ _
        · exact List.mem_cons_of_mem _ (ih.mpr ⟨hy', hne⟩)

theorem nodup_setDel {α : Type} [DecidableEq α] {s : List α} (x : α) (h : s.Nodup) :
    (setDel s x).Nodup := by
  induction s with
  | nil => simp [setDel]
  | cons a rest ih =>
    obtain ⟨ha, hrest⟩ := List.nodup_cons.mp h
    by_cases hax : a = x
    · simpa [setDel, hax] using ih hrest
    · rw [setDel, if_neg hax]
      refine List.nodup_cons.mpr ⟨fun hmem => ?_, ih hrest⟩
      exact ha ((mem_setDel rest x a).mp hmem).1

theorem setDel_of_not_mem {α : Type} [DecidableEq α] {s : List α} {x : α} (h : x ∉ s) :
    setDel s x = s := by
  induction s with
  | nil => rfl
  | cons a rest ih =>
    have hax : a ≠ x := fun hh => h (hh ▸ List.mem_cons_self a rest)
    have hrest : x ∉ rest := fun hh => h (List.mem_cons_of_mem a hh)
    rw [setDel, if_neg hax, ih hrest]

theorem length_setDel {α : Type} [DecidableEq α] {s : List α} {x : α}
    (hnd : s.Nodup) (hx : x ∈ s) : (setDel s x).length + 1 = s.length := by
  induction s with
  | nil => cases hx
  | cons a rest ih =>
    rcases List.mem_cons.mp hx with rfl | hx'
    · have hnr : x ∉ rest := (List.nodup_cons.mp hnd).1
      simp [setDel, setDel_of_not_mem hnr]
    · have ha : a ≠ x := fun hh => (List.nodup_cons.mp hnd).1 (hh ▸ hx')
      have hlen := ih (List.nodup_cons.mp hnd).2 hx'
      rw [setDel, if_neg ha]
      simpa using hlen

theorem detachOne_get_self (chs : List (String × Channel)) (cid : Nat) (name : String) :
    alistGet (detachOne chs cid name) name =
      match alistGet chs name with
      | some ch =>
        if (setDel ch.clients cid).isEmpty then none
        else some { ch with clients := setDel ch.clients cid }
      | none => none := by
  unfold detachOne
  cases hc : alistGet chs name with
  | none => simp [hc]
  | some ch =>
    dsimp only
    by_cases he : (setDel ch.clients cid).isEmpty
    · rw [if_pos he, if_pos he, alistGet_del_self]
    · rw [if_neg he, if_neg he, alistGet_set_self]

theorem detachOne_get_ne (chs : List (String × Channel)) (cid : Nat) {name name' : String}
    (h : name ≠ name') :
    alistGet (detachOne chs cid name) name' = alistGet chs name' := by
  unfold detachOne
  cases hc : alistGet chs name with
  | none => rfl
  | some ch =>
    dsimp only
    by_cases he : (setDel ch.clients cid).isEmpty
    · rw [if_pos he, alistGet_del_ne _ _ _ h]
    · rw [if_neg he, alistGet_set_ne _ _ _ _ h]

/-- Pointwise description of the `removeClient` channel loop: a channel
named in `names` loses member `cid` (and disappears when that empties it);
all other channels are untouched. -/
theorem detachChannels_get (cid : Nat) :
    ∀ names : List String, names.Nodup →
    ∀ (chs : List (String × Channel)) (name : String),
    alistGet (detachChannels chs cid names) name =
      if name ∈ names then
        match alistGet chs name with
        | some ch =>
          if (setDel ch.clients cid).isEmpty then none
          else some { ch with clients := setDel ch.clients cid }
        | none => none
      else alistGet chs name := by
  intro names
  induction names with
  | nil =>
    intro _ chs name
    simp [detachChannels]
  | cons n rest ih =>
    intro hnd chs name
    obtain ⟨hn, hrest⟩ := List.nodup_cons.mp hnd
    rw [detachChannels, ih hrest _ name]
    by_cases hname : name = n
    · subst hname
      have hnotin : name ∉ rest := hn
      rw [if_neg hnotin, if_pos (List.mem_cons_self _ _), detachOne_get_self]
    · have hne : n ≠ name := fun hh => hname hh.symm
      rw [detachOne_get_ne chs cid hne]
      by_cases hr : name ∈ rest
      · rw [if_pos hr, if_pos (List.mem_cons_of_mem _ hr)]
      · rw [if_neg hr, if_neg (by simp [List.mem_cons, hname, hr])]

/-- The structural invariant of the server state: channels in the
directory are non-empty, member and joined-channel sets are duplicate-free,
and the client↔channel relation is bidirectionally consistent. -/
structure Inv (st : ServerState) : Prop where
  chanNonempty : ∀ name ch, alistGet st.channels name = some ch → ch.clients ≠ []
  chanNodup : ∀ name ch, alistGet st.channels name = some ch → ch.clients.Nodup
  clientNodup : ∀ cid c, alistGet st.clients cid = some c → c.channels.Nodup
  memTo : ∀ name ch, alistGet st.channels name = some ch → ∀ cid, cid ∈ ch.clients →
      ∃ c, alistGet st.clients cid = some c ∧ name ∈ c.channels
  toMem : ∀ cid c, alistGet st.clients cid = some c → ∀ name, name ∈ c.channels →
      ∃ ch, alistGet st.channels name = some ch ∧ cid ∈ ch.clients

theorem inv_initial : Inv initialState := by
  constructor <;> intro a b h <;> simp [initialState, alistGet] at h

/-- Updating a client without touching its joined-channel set preserves
the invariant. -/
theorem inv_setClient_same_channels {st : ServerState} {cid : Nat} {c c1 : Client}
    (hInv : Inv st) (hc : alistGet st.clients cid = some c)
    (hch : c1.channels = c.channels) : Inv (setClient st cid c1) := by
  constructor
  · intro name ch h
    exact hInv.chanNonempty name ch h
  · intro name ch h
    exact hInv.chanNodup name ch h
  · intro cid' c' h
    by_cases hcid : cid = cid'
    · subst hcid
      rw [setClient] at h
      simp only at h
      rw [alistGet_set_self] at h
      cases h
      rw [hch]
      exact hInv.clientNodup cid c hc
    · rw [setClient] at h
      simp only at h
      rw [alistGet_set_ne _ _ _ _ hcid] at h
      exact hInv.clientNodup cid' c' h
  · intro name ch h m hm
    obtain ⟨c2, hc2, hname⟩ := hInv.memTo name ch h m hm
    by_cases hcid : cid = m
    · subst hcid
      rw [hc] at hc2
      cases hc2
      refine ⟨c1, ?_, ?_⟩
      · rw [setClient]; simp only; rw [alistGet_set_self]
      · rw [hch]; exact hname
    · refine ⟨c2, ?_, hname⟩
      rw [setClient]; simp only; rw [alistGet_set_ne _ _ _ _ hcid]
      exact hc2
  · intro cid' c' h name hname
    by_cases hcid : cid = cid'
    · subst hcid
      rw [setClient] at h
      simp only at h
      rw [alistGet_set_self] at h
      cases h
      rw [hch] at hname
      exact hInv.toMem cid c hc name hname
    · rw [setClient] at h
      simp only at h
      rw [alistGet_set_ne _ _ _ _ hcid] at h
      exact hInv.toMem cid' c' h name hname

/-- Updating a channel without touching its member set preserves the
invariant. -/
theorem inv_setChannel_same_clients {st : ServerState} {name : String} {ch ch1 : Channel}
    (hInv : Inv st) (hch : alistGet st.channels name = some ch)
    (hcl : ch1.clients = ch.clients) :
    Inv { st with channels := alistSet st.channels name ch1 } := by
  constructor
  · intro name' ch' h
    by_cases hn : name = name'
    · subst hn
      rw [alistGet_set_self] at h
      cases h
      rw [hcl]
      exact hInv.chanNonempty name ch hch
    · rw [alistGet_set_ne _ _ _ _ hn] at h
      exact hInv.chanNonempty name' ch' h
  · intro name' ch' h
    by_cases hn : name = name'
    · subst hn
      rw [alistGet_set_self] at h
      cases h
      rw [hcl]
      exact hInv.chanNodup name ch hch
    · rw [alistGet_set_ne _ _ _ _ hn] at h
      exact hInv.chanNodup name' ch' h
  · intro cid' c' h
    exact hInv.clientNodup cid' c' h
  · intro name' ch' h m hm
    by_cases hn : name = name'
    · subst hn
      rw [alistGet_set_self] at h
      cases h
      rw [hcl] at hm
      exact hInv.memTo name ch hch m hm
    · rw [alistGet_set_ne _ _ _ _ hn] at h
      exact hInv.memTo name' ch' h m hm
  · intro cid' c' h name' hname
    obtain ⟨ch2, hch2, hm⟩ := hInv.toMem cid' c' h name' hname
    by_cases hn : name = name'
    · subst hn
      rw [hch] at hch2
      cases hch2
      refine ⟨ch1, ?_, ?_⟩
      · rw [alistGet_set_self]
      · rw [hcl]; exact hm
    · refine ⟨ch2, ?_, hm⟩
      rw [alistGet_set_ne _ _ _ _ hn]
      exact hch2

theorem isEmptyList_iff {α : Type} (l : List α) : l.isEmpty = true ↔ l = [] := by
  cases l <;> simp

theorem nodup_append_singleton {α : Type} {l : List α} {x : α}
    (h : l.Nodup) (hx : x ∉ l) : (l ++ [x]).Nodup := by
  refine List.Nodup.append h (List.nodup_singleton x) ?_
  intro a ha hb
  rcases List.mem_singleton.mp hb with rfl
  exact hx ha

theorem inv_connect {st : ServerState} (hInv : Inv st) (cid : Nat) (host : String) :
    Inv (connectClient st cid host) := by
  unfold connectClient
  cases hc : alistGet st.clients cid with
  | some c => exact hInv
  | none =>
    dsimp only
    constructor
    · exact hInv.chanNonempty
    · exact hInv.chanNodup
    · intro cid' c' h
      by_cases hcid : cid = cid'
      · subst hcid
        rw [alistGet_set_self] at h
        cases h
        exact List.nodup_nil
      · rw [alistGet_set_ne _ _ _ _ hcid] at h
        exact hInv.clientNodup cid' c' h
    · intro name ch h m hm
      obtain ⟨c2, hc2, hname⟩ := hInv.memTo name ch h m hm
      have hmcid : cid ≠ m := fun hh => by rw [hh] at hc; rw [hc] at hc2; cases hc2
      exact ⟨c2, by rw [alistGet_set_ne _ _ _ _ hmcid]; exact hc2, hname⟩
    · intro cid' c' h name hname
      by_cases hcid : cid = cid'
      · subst hcid
        rw [alistGet_set_self] at h
        cases h
        cases hname
      · rw [alistGet_set_ne _ _ _ _ hcid] at h
        exact hInv.toMem cid' c' h name hname

theorem inv_removeClient {st : ServerState} (hInv : Inv st) (cid : Nat) :
    Inv (removeClient st cid) := by
  unfold removeClient
  cases hc : alistGet st.clients cid with
  | none => exact hInv
  | some c =>
    dsimp only
    have hndc : c.channels.Nodup := hInv.clientNodup cid c hc
    have hget := detachChannels_get cid c.channels hndc st.channels
    constructor
    · intro name ch h
      rw [hget name] at h
      by_cases hm : name ∈ c.channels
      · rw [if_pos hm] at h
        cases hcold : alistGet st.channels name with
        | none => rw [hcold] at h; cases h
        | some ch0 =>
          rw [hcold] at h
          dsimp only at h
          by_cases he : (setDel ch0.clients cid).isEmpty
          · rw [if_pos he] at h; cases h
          · rw [if_neg he] at h
            cases h
            intro hnil
            exact he ((isEmptyList_iff _).mpr hnil)
      · rw [if_neg hm] at h
        exact hInv.chanNonempty name ch h
    · intro name ch h
      rw [hget name] at h
      by_cases hm : name ∈ c.channels
      · rw [if_pos hm] at h
        cases hcold : alistGet st.channels name with
        | none => rw [hcold] at h; cases h
        | some ch0 =>
          rw [hcold] at h
          dsimp only at h
          by_cases he : (setDel ch0.clients cid).isEmpty
          · rw [if_pos he] at h; cases h
          · rw [if_neg he] at h
            cases h
            exact nodup_setDel _ (hInv.chanNodup name ch0 hcold)
      · rw [if_neg hm] at h
        exact hInv.chanNodup name ch h
    · intro cid' c' h
      by_cases hcid : cid = cid'
      · subst hcid
        rw [alistGet_del_self] at h
        cases h
      · rw [alistGet_del_ne _ _ _ hcid] at h
        exact hInv.clientNodup cid' c' h
    · intro name ch h m hm
      rw [hget name] at h
      by_cases hnm : name ∈ c.channels
      · rw [if_pos hnm] at h
        cases hcold : alistGet st.channels name with
        | none => rw [hcold] at h; cases h
        | some ch0 =>
          rw [hcold] at h
          dsimp only at h
          by_cases he : (setDel ch0.clients cid).isEmpty
          · rw [if_pos he] at h; cases h
          · rw [if_neg he] at h
            cases h
            obtain ⟨hm0, hmne⟩ := (mem_setDel _ _ _).mp hm
            obtain ⟨c2, hc2, hname⟩ := hInv.memTo name ch0 hcold m hm0
            have hne : cid ≠ m := fun hh => hmne hh.symm
            exact ⟨c2, by rw [alistGet_del_ne _ _ _ hne]; exact hc2, hname⟩
      · rw [if_neg hnm] at h
        obtain ⟨c2, hc2, hname⟩ := hInv.memTo name ch h m hm
        have hne : cid ≠ m := by
          intro hh
          subst hh
          rw [hc] at hc2
          cases hc2
          exact hnm hname
        exact ⟨c2, by rw [alistGet_del_ne _ _ _ hne]; exact hc2, hname⟩
    · intro cid' c' h name hname
      by_cases hcid : cid = cid'
      · subst hcid
        rw [alistGet_del_self] at h
        cases h
      · rw [alistGet_del_ne _ _ _ hcid] at h
        obtain ⟨ch2, hch2, hm2⟩ := hInv.toMem cid' c' h name hname
        rw [hget name]
        by_cases hnm : name ∈ c.channels
        · rw [if_pos hnm, hch2]
          dsimp only
          have hmem : cid' ∈ setDel ch2.clients cid :=
            (mem_setDel _ _ _).mpr ⟨hm2, fun hh => hcid hh.symm⟩
          have he : ¬(setDel ch2.clients cid).isEmpty = true := by
            rw [isEmptyList_iff]
            intro hnil
            rw [hnil] at hmem
            cases hmem
          rw [if_neg he]
          exact ⟨_, rfl, hmem⟩
        · rw [if_neg hnm]
          exact ⟨ch2, hch2, hm2⟩

/-- The state shape produced by a successful `handleJoin` preserves the
invariant.  `old` is the member list of the channel before the join
(empty when the channel is created by this join). -/
theorem inv_joinState {st : ServerState} {cid : Nat} {c c1 : Client} {name : String}
    {ch1 : Channel} {old : List Nat}
    (hInv : Inv st) (hc : alistGet st.clients cid = some c)
    (holdKind : (alistGet st.channels name = none ∧ old = []) ∨
      (∃ ch0, alistGet st.channels name = some ch0 ∧ old = ch0.clients))
    (hold : ch1.clients = old ++ [cid]) (hnm : cid ∉ old)
    (hc1 : c1.channels = c.channels ++ [name]) (hnn : name ∉ c.channels) :
    Inv ⟨alistSet st.clients cid c1, alistSet st.channels name ch1⟩ := by
  have holdND : old.Nodup := by
    rcases holdKind with ⟨_, rfl⟩ | ⟨ch0, hch0, rfl⟩
    · exact List.nodup_nil
    · exact hInv.chanNodup name ch0 hch0
  constructor
  · intro name' ch' h
    by_cases hn : name = name'
    · subst hn
      rw [alistGet_set_self] at h
      cases h
      rw [hold]
      simp
    · rw [alistGet_set_ne _ _ _ _ hn] at h
      exact hInv.chanNonempty name' ch' h
  · intro name' ch' h
    by_cases hn : name = name'
    · subst hn
      rw [alistGet_set_self] at h
      cases h
      rw [hold]
      exact nodup_append_singleton holdND hnm
    · rw [alistGet_set_ne _ _ _ _ hn] at h
      exact hInv.chanNodup name' ch' h
  · intro cid' c' h
    by_cases hcid : cid = cid'
    · subst hcid
      rw [alistGet_set_self] at h
      cases h
      rw [hc1]
      exact nodup_append_singleton (hInv.clientNodup cid c hc) hnn
    · rw [alistGet_set_ne _ _ _ _ hcid] at h
      exact hInv.clientNodup cid' c' h
  · intro name' ch' h m hm
    by_cases hn : name = name'
    · subst hn
      rw [alistGet_set_self] at h
      cases h
      rw [hold] at hm
      rcases List.mem_append.mp hm with hmo | hmc
      · rcases holdKind with ⟨_, rfl⟩ | ⟨ch0, hch0, rfl⟩
        · cases hmo
        · obtain ⟨c2, hc2, hname⟩ := hInv.memTo name ch0 hch0 m hmo
          have hne : cid ≠ m := fun hh => hnm (hh ▸ hmo)
          refine ⟨c2, ?_, hname⟩
          rw [alistGet_set_ne _ _ _ _ hne]
          exact hc2
      · rcases List.mem_singleton.mp hmc with rfl
        refine ⟨c1, ?_, ?_⟩
        · rw [alistGet_set_self]
        · rw [hc1]
          simp
    · rw [alistGet_set_ne _ _ _ _ hn] at h
      obtain ⟨c2, hc2, hname⟩ := hInv.memTo name' ch' h m hm
      by_cases hcid : cid = m
      · subst hcid
        rw [hc] at hc2
        cases hc2
        refine ⟨c1, ?_, ?_⟩
        · rw [alistGet_set_self]
        · rw [hc1]
          exact List.mem_append_left _ hname
      · refine ⟨c2, ?_, hname⟩
        rw [alistGet_set_ne _ _ _ _ hcid]
        exact hc2
  · intro cid' c' h name' hname
    by_cases hcid : cid = cid'
    · subst hcid
      rw [alistGet_set_self] at h
      cases h
      rw [hc1] at hname
      rcases List.mem_append.mp hname with hold' | hone
      · have hne : name ≠ name' := fun hh => hnn (hh ▸ hold')
        obtain ⟨ch2, hch2, hm2⟩ := hInv.toMem cid c hc name' hold'
        refine ⟨ch2, ?_, hm2⟩
        rw [alistGet_set_ne _ _ _ _ hne]
        exact hch2
      · rcases List.mem_singleton.mp hone with rfl
        refine ⟨ch1, ?_, ?_⟩
        · rw [alistGet_set_self]
        · rw [hold]
          simp
    · rw [alistGet_set_ne _ _ _ _ hcid] at h
      obtain ⟨ch2, hch2, hm2⟩ := hInv.toMem cid' c' h name' hname
      by_cases hn : name = name'
      · subst hn
        rcases holdKind with ⟨hnone, _⟩ | ⟨ch0, hch0, holdc⟩
        · rw [hnone] at hch2
          cases hch2
        · rw [hch0] at hch2
          cases hch2
          refine ⟨ch1, ?_, ?_⟩
          · rw [alistGet_set_self]
          · rw [hold, holdc]
            exact List.mem_append_left _ hm2
      · refine ⟨ch2, ?_, hm2⟩
        rw [alistGet_set_ne _ _ _ _ hn]
        exact hch2

/-- The state shape produced by a successful `handlePart` (and by the
member-removal step of `removeClient` on a single channel) preserves the
invariant. -/
theorem inv_partState {st : ServerState} {cid : Nat} {c c1 : Client} {name : String}
    {ch ch1 : Channel}
    (hInv : Inv st) (hc : alistGet st.clients cid = some c)
    (hch : alistGet st.channels name = some ch)
    (hcl1 : ch1.clients = setDel ch.clients cid)
    (hcc1 : c1.channels = setDel c.channels name) :
    Inv ⟨alistSet st.clients cid c1,
      if ch1.clients.isEmpty then alistDel st.channels name
      else alistSet st.channels name ch1⟩ := by
  constructor
  · intro name' ch' h
    dsimp only at h
    by_cases he : ch1.clients.isEmpty
    · rw [if_pos he] at h
      by_cases hn : name = name'
      · subst hn
        rw [alistGet_del_self] at h
        cases h
      · rw [alistGet_del_ne _ _ _ hn] at h
        exact hInv.chanNonempty name' ch' h
    · rw [if_neg he] at h
      by_cases hn : name = name'
      · subst hn
        rw [alistGet_set_self] at h
        cases h
        intro hnil
        exact he ((isEmptyList_iff _).mpr hnil)
      · rw [alistGet_set_ne _ _ _ _ hn] at h
        exact hInv.chanNonempty name' ch' h
  · intro name' ch' h
    dsimp only at h
    have hother : alistGet st.channels name' = some ch' → ch'.clients.Nodup :=
      hInv.chanNodup name' ch'
    by_cases he : ch1.clients.isEmpty
    · rw [if_pos he] at h
      by_cases hn : name = name'
      · subst hn
        rw [alistGet_del_self] at h
        cases h
      · rw [alistGet_del_ne _ _ _ hn] at h
        exact hother h
    · rw [if_neg he] at h
      by_cases hn : name = name'
      · subst hn
        rw [alistGet_set_self] at h
        cases h
        rw [hcl1]
        exact nodup_setDel _ (hInv.chanNodup name ch hch)
      · rw [alistGet_set_ne _ _ _ _ hn] at h
        exact hother h
  · intro cid' c' h
    dsimp only at h
    by_cases hcid : cid = cid'
    · subst hcid
      rw [alistGet_set_self] at h
      cases h
      rw [hcc1]
      exact nodup_setDel _ (hInv.clientNodup cid c hc)
    · rw [alistGet_set_ne _ _ _ _ hcid] at h
      exact hInv.clientNodup cid' c' h
  · intro name' ch' h m hm
    dsimp only at h ⊢
    by_cases he : ch1.clients.isEmpty
    · rw [if_pos he] at h
      by_cases hn : name = name'
      · subst hn
        rw [alistGet_del_self] at h
        cases h
      · rw [alistGet_del_ne _ _ _ hn] at h
        obtain ⟨c2, hc2, hname⟩ := hInv.memTo name' ch' h m hm
        by_cases hcid : cid = m
        · subst hcid
          rw [hc] at hc2
          cases hc2
          refine ⟨c1, ?_, ?_⟩
          · rw [alistGet_set_self]
          · rw [hcc1]
            exact (mem_setDel _ _ _).mpr ⟨hname, fun hh => hn hh.symm⟩
        · refine ⟨c2, ?_, hname⟩
          rw [alistGet_set_ne _ _ _ _ hcid]
          exact hc2
    · rw [if_neg he] at h
      by_cases hn : name = name'
      · subst hn
        rw [alistGet_set_self] at h
        cases h
        rw [hcl1] at hm
        obtain ⟨hm0, hmne⟩ := (mem_setDel _ _ _).mp hm
        obtain ⟨c2, hc2, hname⟩ := hInv.memTo name ch hch m hm0
        have hne : cid ≠ m := fun hh => hmne hh.symm
        refine ⟨c2, ?_, hname⟩
        rw [alistGet_set_ne _ _ _ _ hne]
        exact hc2
      · rw [alistGet_set_ne _ _ _ _ hn] at h
        obtain ⟨c2, hc2, hname⟩ := hInv.memTo name' ch' h m hm
        by_cases hcid : cid = m
        · subst hcid
          rw [hc] at hc2
          cases hc2
          refine ⟨c1, ?_, ?_⟩
          · rw [alistGet_set_self]
          · rw [hcc1]
            exact (mem_setDel _ _ _).mpr ⟨hname, fun hh => hn hh.symm⟩
        · refine ⟨c2, ?_, hname⟩
          rw [alistGet_set_ne _ _ _ _ hcid]
          exact hc2
  · intro cid' c' h name' hname
    dsimp only at h ⊢
    by_cases hcid : cid = cid'
    · subst hcid
      rw [alistGet_set_self] at h
      cases h
      rw [hcc1] at hname
      obtain ⟨hn0, hnne⟩ := (mem_setDel _ _ _).mp hname
      obtain ⟨ch2, hch2, hm2⟩ := hInv.toMem cid c hc name' hn0
      have hne : name ≠ name' := fun hh => hnne hh.symm
      by_cases he : ch1.clients.isEmpty
      · rw [if_pos he]
        refine ⟨ch2, ?_, hm2⟩
        rw [alistGet_del_ne _ _ _ hne]
        exact hch2
      · rw [if_neg he]
        refine ⟨ch2, ?_, hm2⟩
        rw [alistGet_set_ne _ _ _ _ hne]
        exact hch2
    · rw [alistGet_set_ne _ _ _ _ hcid] at h
      obtain ⟨ch2, hch2, hm2⟩ := hInv.toMem cid' c' h name' hname
      by_cases hn : name = name'
      · subst hn
        rw [hch] at hch2
        cases hch2
        have hmem : cid' ∈ ch1.clients := by
          rw [hcl1]
          exact (mem_setDel _ _ _).mpr ⟨hm2, fun hh => hcid hh.symm⟩
        have he : ¬ch1.clients.isEmpty = true := by
          rw [isEmptyList_iff]
          intro hnil
          rw [hnil] at hmem
          cases hmem
        rw [if_neg he]
        refine ⟨ch1, ?_, hmem⟩
        rw [alistGet_set_self]
      · by_cases he : ch1.clients.isEmpty
        · rw [if_pos he]
          refine ⟨ch2, ?_, hm2⟩
          rw [alistGet_del_ne _ _ _ hn]
          exact hch2
        · rw [if_neg he]
          refine ⟨ch2, ?_, hm2⟩
          rw [alistGet_set_ne _ _ _ _ hn]
          exact hch2

theorem alistSet_set {α β : Type} [DecidableEq α] (m : List (α × β)) (k : α) (v v' : β) :
    alistSet (alistSet m k v) k v' = alistSet m k v' := by
  induction m with
  | nil => simp [alistSet]
  | cons p rest ih =>
    obtain ⟨k0, v0⟩ := p
    by_cases h : k0 = k
    · simp [alistSet, h]
    · simp [alistSet, h, ih]

theorem handlePrivmsg_fst (st : ServerState) (cid : Nat) (parts : List String) :
    (handlePrivmsg st cid parts).1 = st := by
  unfold handlePrivmsg
  split
  · rfl
  · try dsimp only
    repeat' split
    all_goals rfl

theorem handlePing_fst (st : ServerState) (cid : Nat) (parts : List String) :
    (handlePing st cid parts).1 = st := by
  unfold handlePing
  split
  · rfl
  · try dsimp only
    repeat' split
    all_goals rfl

theorem handleWho_fst (st : ServerState) (cid : Nat) (parts : List String) :
    (handleWho st cid parts).1 = st := by
  unfold handleWho
  split
  · rfl
  · try dsimp only
    repeat' split
    all_goals rfl

theorem handleWhois_fst (st : ServerState) (cid : Nat) (parts : List String) :
    (handleWhois st cid parts).1 = st := by
  unfold handleWhois
  split
  · rfl
  · try dsimp only
    repeat' split
    all_goals rfl

theorem handleList_fst (st : ServerState) (cid : Nat) (parts : List String) :
    (handleList st cid parts).1 = st := by
  unfold handleList
  split
  · rfl
  · try dsimp only
    repeat' split
    all_goals rfl

theorem handleMode_fst (st : ServerState) (cid : Nat) (parts : List String) :
    (handleMode st cid parts).1 = st := by
  unfold handleMode
  split
  · rfl
  · try dsimp only
    repeat' split
    all_goals rfl

theorem inv_checkRegistration {st : ServerState} (hInv : Inv st) (cid : Nat) :
    Inv (checkRegistration st cid).1 := by
  unfold checkRegistration
  cases hc : alistGet st.clients cid with
  | none => exact hInv
  | some c =>
    dsimp only
    split_ifs with h
    · exact inv_setClient_same_channels hInv hc rfl
    · exact hInv

theorem inv_handleUser {st : ServerState} (hInv : Inv st) (cid : Nat) (parts : List String) :
    Inv (handleUser st cid parts).1 := by
  unfold handleUser
  cases hc : alistGet st.clients cid with
  | none => exact hInv
  | some c =>
    dsimp only
    split_ifs with h
    · exact hInv
    · refine inv_checkRegistration ?_ cid
      exact inv_setClient_same_channels hInv hc rfl

theorem inv_handleNick {st : ServerState} (hInv : Inv st) (cid : Nat) (parts : List String) :
    Inv (handleNick st cid parts).1 := by
  unfold handleNick
  cases hc : alistGet st.clients cid with
  | none => exact hInv
  | some c =>
    dsimp only
    split_ifs with h1 h2 h3
    · exact hInv
    · exact hInv
    · refine inv_checkRegistration ?_ cid
      exact inv_setClient_same_channels hInv hc rfl
    · refine inv_checkRegistration ?_ cid
      exact inv_setClient_same_channels hInv hc rfl

/-- Invariant preservation for a join that creates the channel: the
handler writes the fresh empty channel into the directory and immediately
overwrites it with the one-member channel. -/
theorem inv_joinFresh {st : ServerState} {cid : Nat} {c c1 : Client} {name : String}
    {ch0 ch1 : Channel}
    (hInv : Inv st) (hc : alistGet st.clients cid = some c)
    (hch : alistGet st.channels name = none)
    (hold : ch1.clients = [] ++ [cid])
    (hc1 : c1.channels = c.channels ++ [name]) (hnn : name ∉ c.channels) :
    Inv ⟨alistSet st.clients cid c1, alistSet (alistSet st.channels name ch0) name ch1⟩ := by
  rw [alistSet_set]
  exact inv_joinState hInv hc (Or.inl ⟨hch, rfl⟩) hold (List.not_mem_nil _) hc1 hnn

set_option maxHeartbeats 1000000 in
theorem inv_handleJoin {st : ServerState} (hInv : Inv st) (cid : Nat) (parts : List String) :
    Inv (handleJoin st cid parts).1 := by
  unfold handleJoin
  cases hc : alistGet st.clients cid with
  | none => exact hInv
  | some c =>
    dsimp only
    by_cases h1 : c.registered = false
    · rw [if_pos h1]; exact hInv
    rw [if_neg h1]
    by_cases h2 : parts.length < 2
    · rw [if_pos h2]; exact hInv
    rw [if_neg h2]
    by_cases h3 : hashTarget (parts.getD 1 "") = false
    · rw [if_pos h3]; exact hInv
    rw [if_neg h3]
    cases hch : alistGet st.channels (parts.getD 1 "") with
    | some ch =>
      dsimp only
      by_cases hmem : cid ∈ ch.clients
      · rw [if_pos hmem]; exact hInv
      · rw [if_neg hmem]
        have hnn : (parts.getD 1 "") ∉ c.channels := by
          intro hmemc
          obtain ⟨ch2, hch2, hm2⟩ := hInv.toMem cid c hc _ hmemc
          rw [hch] at hch2
          cases hch2
          exact hmem hm2
        exact inv_joinState hInv hc (Or.inr ⟨ch, hch, rfl⟩)
          (by rw [setAdd_of_not_mem hmem]) hmem (by rw [setAdd_of_not_mem hnn]) hnn
    | none =>
      dsimp only
      rw [if_neg (List.not_mem_nil cid)]
      have hnn : (parts.getD 1 "") ∉ c.channels := by
        intro hmemc
        obtain ⟨ch2, hch2, hm2⟩ := hInv.toMem cid c hc _ hmemc
        rw [hch] at hch2
        cases hch2
      exact inv_joinFresh hInv hc hch
        (by rw [setAdd_of_not_mem (List.not_mem_nil cid)])
        (by rw [setAdd_of_not_mem hnn]) hnn

/-- `inv_partState`, reshaped to the branch structure of `handlePart`. -/
theorem inv_partSplit {st : ServerState} {cid : Nat} {c : Client} {name : String}
    {ch : Channel} (c1 : Client) (ch1 : Channel)
    (hInv : Inv st) (hc : alistGet st.clients cid = some c)
    (hch : alistGet st.channels name = some ch)
    (hcl1 : ch1.clients = setDel ch.clients cid)
    (hcc1 : c1.channels = setDel c.channels name) :
    Inv (if ch1.clients.isEmpty
      then (⟨alistSet st.clients cid c1, alistDel st.channels name⟩ : ServerState)
      else ⟨alistSet st.clients cid c1, alistSet st.channels name ch1⟩) := by
  have h := inv_partState hInv hc hch hcl1 hcc1
  by_cases he : ch1.clients.isEmpty
  · rw [if_pos he]
    rw [if_pos he] at h
    exact h
  · rw [if_neg he]
    rw [if_neg he] at h
    exact h

theorem inv_handlePart {st : ServerState} (hInv : Inv st) (cid : Nat) (parts : List String) :
    Inv (handlePart st cid parts).1 := by
  unfold handlePart
  cases hc : alistGet st.clients cid with
  | none => exact hInv
  | some c =>
    dsimp only
    by_cases h1 : c.registered = false
    · rw [if_pos h1]; exact hInv
    rw [if_neg h1]
    by_cases h2 : parts.length < 2
    · rw [if_pos h2]; exact hInv
    rw [if_neg h2]
    cases hch : alistGet st.channels (parts.getD 1 "") with
    | none => exact hInv
    | some ch =>
      dsimp only
      by_cases hmem : cid ∈ ch.clients
      · rw [if_pos hmem]
        exact inv_partSplit { c with channels := setDel c.channels (parts.getD 1 "") }
          { ch with clients := setDel ch.clients cid } hInv hc hch rfl rfl
      · rw [if_neg hmem]
        exact hInv

theorem inv_handleQuit {st : ServerState} (hInv : Inv st) (cid : Nat) (parts : List String) :
    Inv (handleQuit st cid parts).1 := by
  unfold handleQuit
  cases hc : alistGet st.clients cid with
  | none => exact hInv
  | some c =>
    dsimp only
    exact inv_removeClient hInv cid

theorem inv_handleTopic {st : ServerState} (hInv : Inv st) (cid : Nat) (parts : List String) :
    Inv (handleTopic st cid parts).1 := by
  unfold handleTopic
  cases hc : alistGet st.clients cid with
  | none => exact hInv
  | some c =>
    dsimp only
    by_cases h1 : c.registered = false
    · rw [if_pos h1]; exact hInv
    rw [if_neg h1]
    by_cases h2 : parts.length < 2
    · rw [if_pos h2]; exact hInv
    rw [if_neg h2]
    cases hch : alistGet st.channels (parts.getD 1 "") with
    | none => exact hInv
    | some ch =>
      dsimp only
      by_cases hmem : cid ∈ ch.clients
      · rw [if_pos hmem]
        by_cases hl : parts.length = 2
        · rw [if_pos hl]
          by_cases ht : jsTruthy ch.topic
          · rw [if_pos ht]; exact hInv
          · rw [if_neg ht]; exact hInv
        · rw [if_neg hl]
          exact inv_setChannel_same_clients hInv hch rfl
      · rw [if_neg hmem]
        exact hInv

theorem inv_handleMessage {st : ServerState} (hInv : Inv st) (cid : Nat) (msg : String) :
    Inv (handleMessage st cid msg).1 := by
  unfold handleMessage
  cases hc : alistGet st.clients cid with
  | none => exact hInv
  | some c =>
    dsimp only
    by_cases hU : jsToUpper ((jsSplit msg ' ').getD 0 "") = "USER"
    · rw [if_pos hU]; exact inv_handleUser hInv cid _
    rw [if_neg hU]
    by_cases hN : jsToUpper ((jsSplit msg ' ').getD 0 "") = "NICK"
    · rw [if_pos hN]; exact inv_handleNick hInv cid _
    rw [if_neg hN]
    by_cases hJ : jsToUpper ((jsSplit msg ' ').getD 0 "") = "JOIN"
    · rw [if_pos hJ]; exact inv_handleJoin hInv cid _
    rw [if_neg hJ]
    by_cases hP : jsToUpper ((jsSplit msg ' ').getD 0 "") = "PART"
    · rw [if_pos hP]; exact inv_handlePart hInv cid _
    rw [if_neg hP]
    by_cases hM : jsToUpper ((jsSplit msg ' ').getD 0 "") = "PRIVMSG"
    · rw [if_pos hM, handlePrivmsg_fst]; exact hInv
    rw [if_neg hM]
    by_cases hG : jsToUpper ((jsSplit msg ' ').getD 0 "") = "PING"
    · rw [if_pos hG, handlePing_fst]; exact hInv
    rw [if_neg hG]
    by_cases hQ : jsToUpper ((jsSplit msg ' ').getD 0 "") = "QUIT"
    · rw [if_pos hQ]; exact inv_handleQuit hInv cid _
    rw [if_neg hQ]
    by_cases hW : jsToUpper ((jsSplit msg ' ').getD 0 "") = "WHO"
    · rw [if_pos hW, handleWho_fst]; exact hInv
    rw [if_neg hW]
    by_cases hWi : jsToUpper ((jsSplit msg ' ').getD 0 "") = "WHOIS"
    · rw [if_pos hWi, handleWhois_fst]; exact hInv
    rw [if_neg hWi]
    by_cases hL : jsToUpper ((jsSplit msg ' ').getD 0 "") = "LIST"
    · rw [if_pos hL, handleList_fst]; exact hInv
    rw [if_neg hL]
    by_cases hT : jsToUpper ((jsSplit msg ' ').getD 0 "") = "TOPIC"
    · rw [if_pos hT]; exact inv_handleTopic hInv cid _
    rw [if_neg hT]
    by_cases hMo : jsToUpper ((jsSplit msg ' ').getD 0 "") = "MODE"
    · rw [if_pos hMo, handleMode_fst]; exact hInv
    rw [if_neg hMo]
    exact hInv

theorem inv_applyOp {st : ServerState} (hInv : Inv st) (op : Op) : Inv (applyOp st op) := by
  cases op with
  | connect cid host => exact inv_connect hInv cid host
  | line cid msg => exact inv_handleMessage hInv cid msg
  | disconnect cid => exact inv_removeClient hInv cid

theorem inv_foldl (ops : List Op) : ∀ st : ServerState, Inv st → Inv (ops.foldl applyOp st) := by
  induction ops with
  | nil => intro st h; exact h
  | cons op rest ih =>
    intro st h
    exact ih _ (inv_applyOp h op)

/-- Every state reachable from startup satisfies the invariant. -/
theorem inv_runOps (ops : List Op) : Inv (runOps ops) :=
  inv_foldl ops initialState inv_initial

/-! ### Supporting lemmas for the claim theorems -/

theorem alistGet_mem {α β : Type} [DecidableEq α] {m : List (α × β)} {k : α} {v : β}
    (h : alistGet m k = some v) : (k, v) ∈ m := by
  induction m with
  | nil => cases h
  | cons p rest ih =>
    obtain ⟨k0, v0⟩ := p
    rw [alistGet] at h
    by_cases hk : k0 = k
    · rw [if_pos hk] at h
      cases h
      subst hk
      exact List.mem_cons_self _ _
    · rw [if_neg hk] at h
      exact List.mem_cons_of_mem _ (ih h)

/-- A broadcast with sender exclusion delivers to exactly the other
members, in membership order. -/
theorem broadcast_exclude_eq (ch : Channel) (msg : String) (cid : Nat) :
    broadcastToChannel ch msg (some cid) =
      (ch.clients.filter (fun m => decide (m ≠ cid))).map (fun m => (m, msg)) := by
  unfold broadcastToChannel
  induction ch.clients with
  | nil => rfl
  | cons a rest ih =>
    by_cases ha : cid = a
    · subst ha
      simp
      simpa using ih
    · have ha2 : a ≠ cid := fun hh => ha hh.symm
      simp [ha, ha2]
      simpa using ih

/-- A broadcast without exclusion delivers to the full membership. -/
theorem broadcast_none_eq (ch : Channel) (msg : String) :
    broadcastToChannel ch msg none = ch.clients.map (fun m => (m, msg)) := by
  unfold broadcastToChannel
  induction ch.clients with
  | nil => rfl
  | cons a rest ih =>
    simp
    simpa using ih

theorem mem_broadcast_ne {ch : Channel} {msg : String} {cid : Nat} {p : Nat × String}
    (hp : p ∈ broadcastToChannel ch msg (some cid)) : p.1 ≠ cid := by
  rw [broadcast_exclude_eq] at hp
  obtain ⟨m, hm, hpm⟩ := List.mem_map.mp hp
  obtain ⟨_, hmne⟩ := List.mem_filter.mp hm
  cases hpm
  simpa using hmne

theorem mem_broadcast_of_mem {ch : Channel} {msg : String} {cid m : Nat}
    (hm : m ∈ ch.clients) (hne : m ≠ cid) :
    (m, msg) ∈ broadcastToChannel ch msg (some cid) := by
  rw [broadcast_exclude_eq]
  exact List.mem_map.mpr ⟨m, List.mem_filter.mpr ⟨hm, by simpa using hne⟩, rfl⟩

theorem flatMap_if_filter {α β : Type} (l : List α) (P : α → Bool) (f : α → List β) :
    (l.flatMap fun x => if P x then f x else []) = (l.filter P).flatMap f := by
  induction l with
  | nil => rfl
  | cons a rest ih =>
    simp only [List.flatMap_cons, List.filter_cons]
    by_cases ha : P a
    · rw [if_pos ha, if_pos ha, List.flatMap_cons, ih]
    · rw [if_neg ha, if_neg ha, ih]
      simp

/-- `checkRegistration` is a no-op on an already-registered client. -/
theorem checkRegistration_registered {st : ServerState} {cid : Nat} {c : Client}
    (hc : alistGet st.clients cid = some c) (hreg : c.registered = true) :
    checkRegistration st cid = (st, []) := by
  unfold checkRegistration
  rw [hc]
  dsimp only
  rw [if_neg ?_]
  rintro ⟨h1, _⟩
  rw [hreg] at h1
  cases h1

/-! ### Concrete demonstration runs (all reachable from startup) -/

/-- Two clients register and join `#test`. -/
def demoOps : List Op :=
  [Op.connect 0 "h1", Op.line 0 "NICK alice", Op.line 0 "USER alice 0 * :Alice A",
   Op.connect 1 "h2", Op.line 1 "NICK bob", Op.line 1 "USER bob 0 * :Bob B",
   Op.line 0 "JOIN #test", Op.line 1 "JOIN #test"]

def demoState : ServerState := runOps demoOps

def demoAlice : Client :=
  { nickname := some "alice", username := some "alice", realname := some "Alice A",
    hostname := "h1", registered := true, channels := ["#test"] }

def demoBob : Client :=
  { nickname := some "bob", username := some "bob", realname := some "Bob B",
    hostname := "h2", registered := true, channels := ["#test"] }

/-- After the demo run, the registered client 1 issues `NICK  x` (note the
doubled space): the parsed nickname argument is the empty string, which the
server accepts, leaving a registered channel member whose nickname is
falsy. -/
def demoOpsEmptyNick : List Op := demoOps ++ [Op.line 1 "NICK  x"]

def demoStateEmptyNick : ServerState := runOps demoOpsEmptyNick

def demoBobEmptyNick : Client :=
  { nickname := some "", username := some "bob", realname := some "Bob B",
    hostname := "h2", registered := true, channels := ["#test"] }

/-! ### Claim theorems -/

/-- C1 (counterexample): in the reachable state where clients 0 and 1 share
channel `#test`, a transport failure of client 0 removes it from the
channel and the registry, but the remaining member 1 receives no quit
notice at all — the close/error path emits no output, contradicting the
claim that a quit notice is broadcast to the remaining members. -/
theorem C1_counterexample :
    alistGet demoState.channels "#test" = some ⟨"#test", [0, 1], none⟩ ∧
    alistGet demoState.clients 1 = some demoBob ∧
    (disconnectEvent demoState 0).2 = [] ∧
    alistGet (disconnectEvent demoState 0).1.clients 0 = none ∧
    alistGet (disconnectEvent demoState 0).1.channels "#test" = some ⟨"#test", [1], none⟩ := by
  decide

/-- C1 (amended): on a transport failure the client is removed from every
channel it occupies (channels left empty are destroyed), its registry entry
is deleted, every other client's registry entry is untouched, and no quit
notice (indeed no output at all) is sent. -/
theorem C1_amended_cleanup (st : ServerState) (cid : Nat) (c : Client)
    (hc : alistGet st.clients cid = some c) (hnd : c.channels.Nodup) :
    (disconnectEvent st cid).2 = [] ∧
    alistGet (disconnectEvent st cid).1.clients cid = none ∧
    (∀ cid2, cid2 ≠ cid → alistGet (disconnectEvent st cid).1.clients cid2 = alistGet st.clients cid2) ∧
    (∀ name ch, alistGet st.channels name = some ch →
      alistGet (disconnectEvent st cid).1.channels name =
        if name ∈ c.channels then
          (if (setDel ch.clients cid).isEmpty then none
           else some { ch with clients := setDel ch.clients cid })
        else some ch) := by
  unfold disconnectEvent removeClient
  rw [hc]
  dsimp only
  refine ⟨rfl, ?_, ?_, ?_⟩
  · exact alistGet_del_self _ _
  · intro cid2 h2
    exact alistGet_del_ne _ _ _ (fun hh => h2 hh.symm)
  · intro name ch hch
    rw [detachChannels_get cid c.channels hnd st.channels name]
    by_cases hm : name ∈ c.channels
    · simp only [hm, if_true, hch]
    · simp only [hm, if_false, hch]

/-- C1 (amended, witness): the cleanup theorem instantiated on the demo
state at client 0. -/
theorem C1_amended_witness :
    alistGet (disconnectEvent demoState 0).1.clients 0 = none := by
  have h := C1_amended_cleanup demoState 0 demoAlice (by decide) (by decide)
  exact h.2.1

/-- The events of the C2 counterexample: a fresh connection sets its
nickname to the empty string (`NICK  x`, doubled space, parses the empty
token as the nickname) and then sends a valid USER line, making both
identity fields present. -/
def c2CexOps : List Op :=
  [Op.connect 0 "h", Op.line 0 "NICK  x", Op.line 0 "USER bob 0 * :Bob B"]

def c2CexState : ServerState := runOps c2CexOps

def c2CexPre : ServerState := runOps [Op.connect 0 "h", Op.line 0 "NICK  x"]

def c2CexClient : Client :=
  { nickname := some "", username := some "bob", realname := some "Bob B",
    hostname := "h", registered := false, channels := [] }

/-- C2 (counterexample): in the reachable state where the client set its
nickname to the (present but empty) string via `NICK  x`, the valid USER
line makes both nickname and username present — yet the client is not
promoted and receives no welcome line at all, then or on any later
registration check: `checkRegistration`'s truthiness test rejects the
empty nickname.  This refutes the claim that promotion happens the moment
both fields become present. -/
theorem C2_counterexample :
    handleMessage c2CexPre 0 "USER bob 0 * :Bob B" = (c2CexState, []) ∧
    alistGet c2CexState.clients 0 = some c2CexClient ∧
    (c2CexClient.nickname).isSome = true ∧
    (c2CexClient.username).isSome = true ∧
    c2CexClient.registered = false ∧
    checkRegistration c2CexState 0 = (c2CexState, []) := by
  decide

/-- C2 (amended): promotion to registered happens the moment both nickname
and username are present *and non-empty* (JS-truthy) on an unregistered
client, emitting exactly the four welcome lines 001, 002, 003, 004 in that
order; on an already-registered client, `checkRegistration` is a no-op,
re-sending USER only updates username/realname with no output, and
re-sending an accepted NICK only updates the nickname and sends nothing
back to the requester.  (With a present-but-empty nickname the promotion
never fires — see the counterexample.) -/
theorem C2_registration (st : ServerState) (cid : Nat) (c : Client)
    (hc : alistGet st.clients cid = some c) :
    (c.registered = false → jsTruthy c.nickname = true → jsTruthy c.username = true →
      checkRegistration st cid =
        (setClient st cid { c with registered := true },
         replyTo { c with registered := true } cid "001"
             (":Welcome to the Comic Chat IRC Network " ++ jsStr c.nickname
               ++ "!" ++ jsStr c.username ++ "@" ++ c.hostname)
           ++ replyTo { c with registered := true } cid "002"
             (":Your host is " ++ serverName ++ ", running version " ++ serverVersion)
           ++ replyTo { c with registered := true } cid "003"
             ":This server was created for Microsoft Comic Chat compatibility"
           ++ replyTo { c with registered := true } cid "004"
             (serverName ++ " " ++ serverVersion ++ " - -"))) ∧
    (c.registered = true → checkRegistration st cid = (st, [])) ∧
    (c.registered = true → ∀ parts : List String, ¬parts.length < 5 →
      handleUser st cid parts =
        (setClient st cid { c with username := some (parts.getD 1 ""), realname := some (jsSubstr1 (String.intercalate " " (parts.drop 4))) }, [])) ∧
    (c.registered = true → ∀ parts : List String, ¬parts.length < 2 →
      nickInUse st cid (parts.getD 1 "") = false →
      (handleNick st cid parts).1 = setClient st cid { c with nickname := some (parts.getD 1 "") } ∧
      ∀ p ∈ (handleNick st cid parts).2, p.1 ≠ cid) := by
  refine ⟨?_, ?_, ?_, ?_⟩
  · intro hreg hn hu
    unfold checkRegistration
    rw [hc]
    dsimp only
    rw [if_pos ⟨hreg, hn, hu⟩]
  · intro hreg
    exact checkRegistration_registered hc hreg
  · intro hreg parts hlen
    unfold handleUser
    rw [hc]
    dsimp only
    rw [if_neg hlen]
    have hlook : alistGet (setClient st cid { c with username := some (parts.getD 1 ""), realname := some (jsSubstr1 (String.intercalate " " (parts.drop 4))) }).clients cid = some { c with username := some (parts.getD 1 ""), realname := some (jsSubstr1 (String.intercalate " " (parts.drop 4))) } :=
      alistGet_set_self _ _ _
    exact checkRegistration_registered hlook hreg
  · intro hreg parts hlen hfree
    have hfree2 : ¬nickInUse st cid (parts.getD 1 "") = true := by
      rw [hfree]
      exact Bool.false_ne_true
    unfold handleNick
    rw [hc]
    dsimp only
    rw [if_neg hlen, if_neg hfree2]
    have hlook : alistGet (setClient st cid { c with nickname := some (parts.getD 1 "") }).clients cid = some { c with nickname := some (parts.getD 1 "") } :=
      alistGet_set_self _ _ _
    have hcheck := checkRegistration_registered hlook hreg
    rw [hcheck]
    dsimp only
    constructor
    · rfl
    · intro p hp
      rw [List.append_nil] at hp
      by_cases hbr : ({ c with nickname := some (parts.getD 1 "") } : Client).registered = true
          ∧ jsTruthy c.nickname = true
      · rw [if_pos hbr] at hp
        obtain ⟨name, hname, hinner⟩ := List.mem_flatMap.mp hp
        cases hh : alistGet (setClient st cid { c with nickname := some (parts.getD 1 "") }).channels name with
        | none => rw [hh] at hinner; cases hinner
        | some ch =>
          rw [hh] at hinner
          exact mem_broadcast_ne hinner
      · rw [if_neg hbr] at hp
        cases hp

/-- A concrete unregistered client with both identity fields present, used
to witness the promotion path. -/
def c2Alice : Client :=
  { nickname := some "alice", username := some "alice", realname := some "Alice A",
    hostname := "h1", registered := false, channels := [] }

def c2State : ServerState := { clients := [(0, c2Alice)], channels := [] }

/-- C2 (witness): a concrete unregistered client with both fields present
is promoted with the four welcome lines. -/
theorem C2_witness :
    checkRegistration c2State 0 =
      (setClient c2State 0 { c2Alice with registered := true },
       [(0, ":irc.comicserver.local 001 alice :Welcome to the Comic Chat IRC Network alice!alice@h1"),
        (0, ":irc.comicserver.local 002 alice :Your host is irc.comicserver.local, running version 1.0.0"),
        (0, ":irc.comicserver.local 003 alice :This server was created for Microsoft Comic Chat compatibility"),
        (0, ":irc.comicserver.local 004 alice irc.comicserver.local 1.0.0 - -")]) := by
  have h := (C2_registration c2State 0 c2Alice (by decide)).1 rfl (by decide) (by decide)
  rw [h]
  decide

/-- C3: a NICK request for a nickname held by another (registered) client
is answered with only the 433 reply and the whole server state — in
particular the requester's nickname and registered flag — is unchanged. -/
theorem C3_nickCollision (st : ServerState) (cid cid2 : Nat) (c c2 : Client)
    (parts : List String)
    (hc : alistGet st.clients cid = some c)
    (hc2 : alistGet st.clients cid2 = some c2)
    (hne : cid2 ≠ cid)
    (_hreg2 : c2.registered = true)
    (hn : c2.nickname = some (parts.getD 1 ""))
    (hlen : ¬parts.length < 2) :
    handleNick st cid parts =
      (st, replyTo c cid "433" (parts.getD 1 "" ++ " :Nickname is already in use")) := by
  have huse : nickInUse st cid (parts.getD 1 "") = true := by
    unfold nickInUse
    rw [List.any_eq_true]
    refine ⟨(cid2, c2), alistGet_mem hc2, ?_⟩
    simp [hne, hn]
  unfold handleNick
  rw [hc]
  dsimp only
  rw [if_neg hlen, if_pos huse]

/-- C3 (witness): concrete two-client collision. -/
theorem C3_witness :
    handleNick demoState 0 ["NICK", "bob"] =
      (demoState, replyTo demoAlice 0 "433" ("bob" ++ " :Nickname is already in use")) := by
  have h := C3_nickCollision demoState 0 1 demoAlice demoBob ["NICK", "bob"]
    (by decide) (by decide) (by decide) (by decide) (by decide) (by decide)
  rw [h]
  decide

/-- The bidirectional client↔channel consistency stated by the spec: every
directory channel is non-empty, every channel member is a registry client
listing that channel, and every channel a client lists exists and contains
the client. -/
def bidirConsistent (st : ServerState) : Prop :=
  (∀ name ch, alistGet st.channels name = some ch → ch.clients ≠ []) ∧
  (∀ name ch, alistGet st.channels name = some ch → ∀ cid, cid ∈ ch.clients →
      ∃ c, alistGet st.clients cid = some c ∧ name ∈ c.channels) ∧
  (∀ cid c, alistGet st.clients cid = some c → ∀ name, name ∈ c.channels →
      ∃ ch, alistGet st.channels name = some ch ∧ cid ∈ ch.clients)

/-- C4: in every state reachable by any sequence of connection, inbound
line (including JOIN, PART, QUIT) and disconnect events, a channel exists
in the directory iff its member set is non-empty, and membership agrees
bidirectionally with the clients' joined-channel sets. -/
theorem C4_invariant (ops : List Op) : bidirConsistent (runOps ops) := by
  have h := inv_runOps ops
  exact ⟨h.chanNonempty, h.memTo, h.toMem⟩

/-- C4 (witness): instantiated on the demo run. -/
theorem C4_witness :
    ∃ c, alistGet demoState.clients 1 = some c ∧ "#test" ∈ c.channels := by
  have h := C4_invariant demoOps
  exact h.2.1 "#test" ⟨"#test", [0, 1], none⟩ (by decide) 1 (by decide)

/-! ### Registration gates of the individual handlers -/

theorem handleJoin_unregistered {st : ServerState} {cid : Nat} {c : Client}
    (hc : alistGet st.clients cid = some c) (hreg : c.registered = false)
    (parts : List String) :
    handleJoin st cid parts = (st, replyTo c cid "451" ":You have not registered") := by
  unfold handleJoin
  rw [hc]
  dsimp only
  rw [if_pos hreg]

theorem handlePart_unregistered {st : ServerState} {cid : Nat} {c : Client}
    (hc : alistGet st.clients cid = some c) (hreg : c.registered = false)
    (parts : List String) :
    handlePart st cid parts = (st, replyTo c cid "451" ":You have not registered") := by
  unfold handlePart
  rw [hc]
  dsimp only
  rw [if_pos hreg]

theorem handlePrivmsg_unregistered {st : ServerState} {cid : Nat} {c : Client}
    (hc : alistGet st.clients cid = some c) (hreg : c.registered = false)
    (parts : List String) :
    handlePrivmsg st cid parts = (st, replyTo c cid "451" ":You have not registered") := by
  unfold handlePrivmsg
  rw [hc]
  dsimp only
  rw [if_pos hreg]

theorem handleWho_unregistered {st : ServerState} {cid : Nat} {c : Client}
    (hc : alistGet st.clients cid = some c) (hreg : c.registered = false)
    (parts : List String) :
    handleWho st cid parts = (st, replyTo c cid "451" ":You have not registered") := by
  unfold handleWho
  rw [hc]
  dsimp only
  rw [if_pos hreg]

theorem handleWhois_unregistered {st : ServerState} {cid : Nat} {c : Client}
    (hc : alistGet st.clients cid = some c) (hreg : c.registered = false)
    (parts : List String) :
    handleWhois st cid parts = (st, replyTo c cid "451" ":You have not registered") := by
  unfold handleWhois
  rw [hc]
  dsimp only
  rw [if_pos hreg]

theorem handleList_unregistered {st : ServerState} {cid : Nat} {c : Client}
    (hc : alistGet st.clients cid = some c) (hreg : c.registered = false)
    (parts : List String) :
    handleList st cid parts = (st, replyTo c cid "451" ":You have not registered") := by
  unfold handleList
  rw [hc]
  dsimp only
  rw [if_pos hreg]

theorem handleTopic_unregistered {st : ServerState} {cid : Nat} {c : Client}
    (hc : alistGet st.clients cid = some c) (hreg : c.registered = false)
    (parts : List String) :
    handleTopic st cid parts = (st, replyTo c cid "451" ":You have not registered") := by
  unfold handleTopic
  rw [hc]
  dsimp only
  rw [if_pos hreg]

theorem handleMode_unregistered {st : ServerState} {cid : Nat} {c : Client}
    (hc : alistGet st.clients cid = some c) (hreg : c.registered = false)
    (parts : List String) :
    handleMode st cid parts = (st, replyTo c cid "451" ":You have not registered") := by
  unfold handleMode
  rw [hc]
  dsimp only
  rw [if_pos hreg]

/-- A fresh unregistered connection, used by the C5 demonstrations. -/
def c5Client : Client := { hostname := "h" }

def c5State : ServerState := { clients := [(0, c5Client)], channels := [] }

/-- C5 (counterexample): from an unregistered client, the line "FOO bar" —
whose verb is none of NICK, USER, PING, QUIT — is answered with the 421
unknown-command reply, not the 451 not-registered reply the claim
requires (the state is still unchanged). -/
theorem C5_counterexample :
    alistGet c5State.clients 0 = some c5Client ∧
    c5Client.registered = false ∧
    jsToUpper ((jsSplit "FOO bar" ' ').getD 0 "") = "FOO" ∧
    handleMessage c5State 0 "FOO bar" =
      (c5State, [(0, ":irc.comicserver.local 421 * FOO :Unknown command")]) ∧
    ((0 : Nat), ":irc.comicserver.local 451 * :You have not registered")
      ∉ (handleMessage c5State 0 "FOO bar").2 := by
  decide

/-- C5 (amended): for every unregistered client, every inbound line whose
(case-normalized) verb is one of the *recognized* registration-gated verbs
JOIN, PART, PRIVMSG, WHO, WHOIS, LIST, TOPIC, MODE is answered with
exactly the 451 not-registered reply and the state is unchanged.
(Unknown verbs instead get a 421 unknown-command reply, also with no state
change.) -/
theorem C5_amended (st : ServerState) (cid : Nat) (c : Client) (msg : String)
    (hc : alistGet st.clients cid = some c)
    (hreg : c.registered = false)
    (hcmd : jsToUpper ((jsSplit msg ' ').getD 0 "") ∈
      (["JOIN", "PART", "PRIVMSG", "WHO", "WHOIS", "LIST", "TOPIC", "MODE"] : List String)) :
    handleMessage st cid msg = (st, replyTo c cid "451" ":You have not registered") := by
  unfold handleMessage
  rw [hc]
  dsimp only
  simp only [List.mem_cons, List.mem_singleton] at hcmd
  rcases hcmd with h | h | h | h | h | h | h | h | hnil
  · rw [h, if_neg (by decide), if_neg (by decide), if_pos rfl]
    exact handleJoin_unregistered hc hreg _
  · rw [h, if_neg (by decide), if_neg (by decide), if_neg (by decide), if_pos rfl]
    exact handlePart_unregistered hc hreg _
  · rw [h, if_neg (by decide), if_neg (by decide), if_neg (by decide), if_neg (by decide),
      if_pos rfl]
    exact handlePrivmsg_unregistered hc hreg _
  · rw [h, if_neg (by decide), if_neg (by decide), if_neg (by decide), if_neg (by decide),
      if_neg (by decide), if_neg (by decide), if_neg (by decide), if_pos rfl]
    exact handleWho_unregistered hc hreg _
  · rw [h, if_neg (by decide), if_neg (by decide), if_neg (by decide), if_neg (by decide),
      if_neg (by decide), if_neg (by decide), if_neg (by decide), if_neg (by decide),
      if_pos rfl]
    exact handleWhois_unregistered hc hreg _
  · rw [h, if_neg (by decide), if_neg (by decide), if_neg (by decide), if_neg (by decide),
      if_neg (by decide), if_neg (by decide), if_neg (by decide), if_neg (by decide),
      if_neg (by decide), if_pos rfl]
    exact handleList_unregistered hc hreg _
  · rw [h, if_neg (by decide), if_neg (by decide), if_neg (by decide), if_neg (by decide),
      if_neg (by decide), if_neg (by decide), if_neg (by decide), if_neg (by decide),
      if_neg (by decide), if_neg (by decide), if_pos rfl]
    exact handleTopic_unregistered hc hreg _
  · rw [h, if_neg (by decide), if_neg (by decide), if_neg (by decide), if_neg (by decide),
      if_neg (by decide), if_neg (by decide), if_neg (by decide), if_neg (by decide),
      if_neg (by decide), if_neg (by decide), if_neg (by decide), if_pos rfl]
    exact handleMode_unregistered hc hreg _
  · exact absurd hnil (List.not_mem_nil _)

/-- C5 (amended, witness): a concrete unregistered client sending
`JOIN #x` gets exactly the 451 reply. -/
theorem C5_amended_witness :
    handleMessage c5State 0 "JOIN #x" =
      (c5State, replyTo c5Client 0 "451" ":You have not registered") :=
  C5_amended c5State 0 c5Client "JOIN #x" (by decide) (by decide) (by decide)

/-- C6: a channel-targeted PRIVMSG from a non-member (or to a nonexistent
channel) is answered with only the 404 reply and reaches no member's sink;
from a member it is delivered to exactly the other members (sender
excluded), in membership order, with no state change either way. -/
theorem C6_privmsgChannel (st : ServerState) (cid : Nat) (c : Client) (parts : List String)
    (hc : alistGet st.clients cid = some c)
    (hreg : c.registered = true)
    (hlen : ¬parts.length < 3)
    (hsigil : hashTarget (parts.getD 1 "") = true) :
    ((match alistGet st.channels (parts.getD 1 "") with
      | some ch => cid ∉ ch.clients
      | none => True) →
      handlePrivmsg st cid parts =
        (st, replyTo c cid "404" (parts.getD 1 "" ++ " :Cannot send to channel"))) ∧
    (∀ ch, alistGet st.channels (parts.getD 1 "") = some ch → cid ∈ ch.clients →
      handlePrivmsg st cid parts =
        (st, (ch.clients.filter (fun m => decide (m ≠ cid))).map
          (fun m => (m, maskOf c ++ " PRIVMSG " ++ parts.getD 1 "" ++ " :"
            ++ jsSubstr1 (String.intercalate " " (parts.drop 2)))))) ∧
    (∀ ch, alistGet st.channels (parts.getD 1 "") = some ch → cid ∉ ch.clients →
      ∀ p ∈ (handlePrivmsg st cid parts).2, p.1 ∉ ch.clients) := by
  have hnotreg : ¬(c.registered = false) := by
    simp [hreg]
  have hred : ∀ P : ServerState × Output → Prop,
      P (match alistGet st.channels (parts.getD 1 "") with
         | some ch =>
           if cid ∈ ch.clients then
             (st, broadcastToChannel ch (maskOf c ++ " PRIVMSG " ++ parts.getD 1 "" ++ " :"
               ++ jsSubstr1 (String.intercalate " " (parts.drop 2))) (some cid))
           else (st, replyTo c cid "404" (parts.getD 1 "" ++ " :Cannot send to channel"))
         | none => (st, replyTo c cid "404" (parts.getD 1 "" ++ " :Cannot send to channel"))) →
      P (handlePrivmsg st cid parts) := by
    intro P hP
    unfold handlePrivmsg
    rw [hc]
    dsimp only
    rw [if_neg hnotreg, if_neg hlen, if_pos hsigil]
    exact hP
  refine ⟨?_, ?_, ?_⟩
  · intro hrej
    refine hred (fun r => r = _) ?_
    cases hch : alistGet st.channels (parts.getD 1 "") with
    | none => rfl
    | some ch =>
      rw [hch] at hrej
      dsimp only
      rw [if_neg hrej]
  · intro ch hch hmem
    refine hred (fun r => r = _) ?_
    rw [hch]
    dsimp only
    rw [if_pos hmem, broadcast_exclude_eq]
  · intro ch hch hnm
    refine hred (fun r => ∀ p ∈ r.2, p.1 ∉ ch.clients) ?_
    rw [hch]
    dsimp only
    rw [if_neg hnm]
    intro p hp
    rcases List.mem_singleton.mp hp with rfl
    exact hnm

/-- C6 (witness): bob is a member of `#test`, so his message reaches
exactly alice; the demo also evaluates the member filter concretely. -/
theorem C6_witness :
    handlePrivmsg demoState 1 ["PRIVMSG", "#test", ":hi"] =
      (demoState, [(0, ":bob!bob@h2 PRIVMSG #test :hi")]) := by
  have h := (C6_privmsgChannel demoState 1 demoBob ["PRIVMSG", "#test", ":hi"]
    (by decide) (by decide) (by decide) (by decide)).2.1
    ⟨"#test", [0, 1], none⟩ (by decide) (by decide)
  rw [h]
  decide

/-- The PART notice line: `:nick!user@host PART <channel>` plus the
optional reason (leading ':' stripped), exactly as `handlePart` builds
it. -/
def partLineOf (c : Client) (parts : List String) : String :=
  let partMessage := String.intercalate " " (parts.drop 2)
  let fullMessage :=
    if partMessage == "" then ""
    else " :" ++ (if colonStart partMessage then jsSubstr1 partMessage else partMessage)
  maskOf c ++ " PART " ++ parts.getD 1 "" ++ fullMessage

/-- C7: a member's PART broadcasts the part notice to the full pre-removal
membership — the sender included — and then either destroys the channel
(when the sender was the last member) or leaves it with exactly one fewer
member. -/
theorem C7_part (st : ServerState) (cid : Nat) (c : Client) (parts : List String)
    (ch : Channel)
    (hc : alistGet st.clients cid = some c)
    (hreg : c.registered = true)
    (hlen : ¬parts.length < 2)
    (hch : alistGet st.channels (parts.getD 1 "") = some ch)
    (hmem : cid ∈ ch.clients)
    (hnd : ch.clients.Nodup) :
    (handlePart st cid parts).2 = ch.clients.map (fun m => (m, partLineOf c parts)) ∧
    (cid, partLineOf c parts) ∈ (handlePart st cid parts).2 ∧
    ((setDel ch.clients cid).isEmpty = true →
      alistGet (handlePart st cid parts).1.channels (parts.getD 1 "") = none) ∧
    ((setDel ch.clients cid).isEmpty = false →
      alistGet (handlePart st cid parts).1.channels (parts.getD 1 "") =
        some { ch with clients := setDel ch.clients cid } ∧
      (setDel ch.clients cid).length + 1 = ch.clients.length) := by
  have hnotreg : ¬(c.registered = false) := by
    simp [hreg]
  have hred : handlePart st cid parts =
      (if (setDel ch.clients cid).isEmpty
        then { setClient st cid { c with channels := setDel c.channels (parts.getD 1 "") } with
                channels := alistDel st.channels (parts.getD 1 "") }
        else { setClient st cid { c with channels := setDel c.channels (parts.getD 1 "") } with
                channels := alistSet st.channels (parts.getD 1 "")
                  { ch with clients := setDel ch.clients cid } },
       broadcastToChannel ch (partLineOf c parts) none) := by
    unfold handlePart
    rw [hc]
    dsimp only
    rw [if_neg hnotreg, if_neg hlen, hch]
    dsimp only
    rw [if_pos hmem]
    exact rfl
  refine ⟨?_, ?_, ?_, ?_⟩
  · rw [hred]
    dsimp only
    rw [broadcast_none_eq]
  · rw [hred]
    dsimp only
    rw [broadcast_none_eq]
    exact List.mem_map.mpr ⟨cid, hmem, rfl⟩
  · intro he
    rw [hred]
    dsimp only
    rw [if_pos he]
    dsimp only
    exact alistGet_del_self _ _
  · intro he
    have he2 : ¬(setDel ch.clients cid).isEmpty = true := by
      rw [he]
      exact Bool.false_ne_true
    rw [hred]
    dsimp only
    rw [if_neg he2]
    dsimp only
    exact ⟨alistGet_set_self _ _ _, length_setDel hnd hmem⟩

/-- C7 (witness): bob parting `#test` is notified himself and the channel
survives with alice alone. -/
theorem C7_witness :
    (handlePart demoState 1 ["PART", "#test"]).2 =
      [(0, ":bob!bob@h2 PART #test"), (1, ":bob!bob@h2 PART #test")] := by
  have h := (C7_part demoState 1 demoBob ["PART", "#test"] ⟨"#test", [0, 1], none⟩
    (by decide) (by decide) (by decide) (by decide) (by decide) (by decide)).1
  rw [h]
  decide

/-- C8 (counterexample): in the reachable state where registered member 1
of `#test` has set its nickname to the empty string (via `NICK  x`, doubled
space), WHO on `#test` from member 0 emits only ONE 352 line although the
channel has TWO members, because members with a falsy nickname are
skipped — contradicting "one 352 line per member". -/
theorem C8_counterexample :
    alistGet demoStateEmptyNick.channels "#test" = some ⟨"#test", [0, 1], none⟩ ∧
    alistGet demoStateEmptyNick.clients 0 = some demoAlice ∧
    alistGet demoStateEmptyNick.clients 1 = some demoBobEmptyNick ∧
    demoBobEmptyNick.registered = true ∧
    (handleMessage demoStateEmptyNick 0 "WHO #test").2 =
      [(0, ":irc.comicserver.local 352 alice #test alice h1 irc.comicserver.local alice H :0 Alice A"),
       (0, ":irc.comicserver.local 315 alice #test :End of /WHO list")] := by
  decide

/-- C8 (amended): WHO with no target yields only the 315 end marker; with a
channel target of which the requester is a member it yields one 352 line
per member *whose nickname is truthy (present and non-empty)* followed by
the 315 marker; with a channel target of which the requester is not a
member (or a nonexistent channel) it yields only the 315 marker and no
error. -/
theorem C8_amended (st : ServerState) (cid : Nat) (c : Client) (parts : List String)
    (hc : alistGet st.clients cid = some c)
    (hreg : c.registered = true) :
    (parts.length < 2 →
      handleWho st cid parts = (st, replyTo c cid "315" "* :End of /WHO list")) ∧
    (¬parts.length < 2 → hashTarget (parts.getD 1 "") = true →
      (∀ ch, alistGet st.channels (parts.getD 1 "") = some ch → cid ∈ ch.clients →
        handleWho st cid parts =
          (st, ((ch.clients.filter (fun m => jsTruthy (getClient st m).nickname)).flatMap
              (fun m => whoLine c cid (parts.getD 1 "") (getClient st m)))
            ++ replyTo c cid "315" (parts.getD 1 "" ++ " :End of /WHO list"))) ∧
      ((match alistGet st.channels (parts.getD 1 "") with
        | some ch => cid ∉ ch.clients
        | none => True) →
        handleWho st cid parts =
          (st, replyTo c cid "315" (parts.getD 1 "" ++ " :End of /WHO list")))) := by
  have hnotreg : ¬(c.registered = false) := by
    simp [hreg]
  constructor
  · intro hlt
    unfold handleWho
    rw [hc]
    dsimp only
    rw [if_neg hnotreg, if_pos hlt]
  · intro hlen hsigil
    constructor
    · intro ch hch hmem
      unfold handleWho
      rw [hc]
      dsimp only
      rw [if_neg hnotreg, if_neg hlen, if_pos hsigil, hch]
      dsimp only
      rw [if_pos hmem]
      rw [flatMap_if_filter]
    · intro hrej
      unfold handleWho
      rw [hc]
      dsimp only
      rw [if_neg hnotreg, if_neg hlen, if_pos hsigil]
      cases hch : alistGet st.channels (parts.getD 1 "") with
      | none => rfl
      | some ch =>
        rw [hch] at hrej
        dsimp only
        rw [if_neg hrej]
        rfl

/-- C8 (amended, witness): WHO on the clean demo state, where every member
nickname is truthy, yields one 352 per member and the 315 marker. -/
theorem C8_amended_witness :
    handleWho demoState 0 ["WHO", "#test"] =
      (demoState,
       [(0, ":irc.comicserver.local 352 alice #test alice h1 irc.comicserver.local alice H :0 Alice A"),
        (0, ":irc.comicserver.local 352 alice #test bob h2 irc.comicserver.local bob H :0 Bob B"),
        (0, ":irc.comicserver.local 315 alice #test :End of /WHO list")]) := by
  have h := ((C8_amended demoState 0 demoAlice ["WHO", "#test"] (by decide) (by decide)).2
    (by decide) (by decide)).1 ⟨"#test", [0, 1], none⟩ (by decide) (by decide)
  rw [h]
  decide

/-- C9 (counterexample): in the reachable state where registered client 1
occupies `#test` (with another member) under the empty-string nickname, the
successful change `NICK carol` broadcasts nothing at all: the handler skips
the notice because the old nickname is falsy. -/
theorem C9_counterexample :
    alistGet demoStateEmptyNick.clients 1 = some demoBobEmptyNick ∧
    demoBobEmptyNick.registered = true ∧
    demoBobEmptyNick.channels = ["#test"] ∧
    alistGet demoStateEmptyNick.channels "#test" = some ⟨"#test", [0, 1], none⟩ ∧
    alistGet (handleMessage demoStateEmptyNick 1 "NICK carol").1.clients 1 =
      some { demoBobEmptyNick with nickname := some "carol" } ∧
    (handleMessage demoStateEmptyNick 1 "NICK carol").2 = [] := by
  decide

/-- C9 (amended): when an already-registered client whose current nickname
is truthy (present and non-empty) successfully changes its nickname, every
other member of every channel it occupies receives a nick-change notice
whose message prefix is built from the *old* nickname. -/
theorem C9_amended (st : ServerState) (cid : Nat) (c : Client) (parts : List String)
    (hc : alistGet st.clients cid = some c)
    (hreg : c.registered = true)
    (hold : jsTruthy c.nickname = true)
    (hlen : ¬parts.length < 2)
    (hfree : nickInUse st cid (parts.getD 1 "") = false) :
    (handleNick st cid parts).1 = setClient st cid { c with nickname := some (parts.getD 1 "") } ∧
    (∀ name, name ∈ c.channels → ∀ ch, alistGet st.channels name = some ch →
      ∀ m, m ∈ ch.clients → m ≠ cid →
        (m, ":" ++ jsStr c.nickname ++ "!" ++ jsStr c.username ++ "@" ++ c.hostname
          ++ " NICK :" ++ parts.getD 1 "") ∈ (handleNick st cid parts).2) := by
  have hfree2 : ¬nickInUse st cid (parts.getD 1 "") = true := by
    rw [hfree]
    exact Bool.false_ne_true
  have hlook : alistGet (setClient st cid { c with nickname := some (parts.getD 1 "") }).clients cid = some { c with nickname := some (parts.getD 1 "") } :=
    alistGet_set_self _ _ _
  have hcheck := checkRegistration_registered hlook hreg
  have hred : handleNick st cid parts =
      (setClient st cid { c with nickname := some (parts.getD 1 "") },
        (c.channels.flatMap (fun name =>
          match alistGet (setClient st cid { c with nickname := some (parts.getD 1 "") }).channels name with
          | some ch =>
            broadcastToChannel ch
              (":" ++ jsStr c.nickname ++ "!" ++ jsStr c.username ++ "@" ++ c.hostname
                ++ " NICK :" ++ parts.getD 1 "") (some cid)
          | none => [])) ++ []) := by
    unfold handleNick
    rw [hc]
    dsimp only
    rw [if_neg hlen, if_neg hfree2]
    rw [if_pos ⟨hreg, hold⟩]
    rw [hcheck]
  constructor
  · rw [hred]
  · intro name hname ch hch m hm hne
    rw [hred]
    dsimp only
    rw [List.append_nil]
    refine List.mem_flatMap.mpr ⟨name, hname, ?_⟩
    have hch2 : alistGet (setClient st cid { c with nickname := some (parts.getD 1 "") }).channels name = some ch := hch
    rw [hch2]
    exact mem_broadcast_of_mem hm hne

/-- C9 (amended, witness): bob changing to `charlie` notifies alice with
the old `bob` prefix. -/
theorem C9_amended_witness :
    ((0 : Nat), ":" ++ jsStr demoBob.nickname ++ "!" ++ jsStr demoBob.username ++ "@"
        ++ demoBob.hostname ++ " NICK :" ++ (["NICK", "charlie"].getD 1 ""))
      ∈ (handleNick demoState 1 ["NICK", "charlie"]).2 := by
  have h := (C9_amended demoState 1 demoBob ["NICK", "charlie"]
    (by decide) (by decide) (by decide) (by decide) (by decide)).2
    "#test" (by decide) ⟨"#test", [0, 1], none⟩ (by decide) 0 (by decide) (by decide)
  exact h

/-- C10: with at least three tokens, the PRIVMSG text delivered (to a
channel's other members or to a direct nickname target) is the space-join
of the tokens from the third onward with its first character removed
unconditionally (`jsSubstr1`), whether or not that text carried the ':'
marker. -/
theorem C10_privmsgText (st : ServerState) (cid : Nat) (c : Client) (parts : List String)
    (hc : alistGet st.clients cid = some c)
    (hreg : c.registered = true)
    (hlen : ¬parts.length < 3) :
    (∀ ch, hashTarget (parts.getD 1 "") = true →
      alistGet st.channels (parts.getD 1 "") = some ch → cid ∈ ch.clients →
      (handlePrivmsg st cid parts).2 =
        broadcastToChannel ch (maskOf c ++ " PRIVMSG " ++ parts.getD 1 "" ++ " :"
          ++ jsSubstr1 (String.intercalate " " (parts.drop 2))) (some cid)) ∧
    (hashTarget (parts.getD 1 "") = false →
      ∀ t, findClientByNickname st (parts.getD 1 "") = some t →
      (handlePrivmsg st cid parts).2 =
        [(t.1, maskOf c ++ " PRIVMSG " ++ parts.getD 1 "" ++ " :"
          ++ jsSubstr1 (String.intercalate " " (parts.drop 2)))]) := by
  have hnotreg : ¬(c.registered = false) := by
    simp [hreg]
  constructor
  · intro ch hsigil hch hmem
    unfold handlePrivmsg
    rw [hc]
    dsimp only
    rw [if_neg hnotreg, if_neg hlen, if_pos hsigil, hch]
    dsimp only
    rw [if_pos hmem]
  · intro hsigil t ht
    have hsigil2 : ¬hashTarget (parts.getD 1 "") = true := by
      rw [hsigil]
      exact Bool.false_ne_true
    unfold handlePrivmsg
    rw [hc]
    dsimp only
    rw [if_neg hnotreg, if_neg hlen, if_neg hsigil2, ht]
    rfl

def c10A : Client :=
  { nickname := some "a", username := some "au", realname := some "ar",
    hostname := "h", registered := true, channels := ["#c"] }

def c10B : Client :=
  { nickname := some "b", username := some "bu", realname := some "br",
    hostname := "h", registered := true, channels := ["#c"] }

def c10State : ServerState :=
  { clients := [(0, c10A), (1, c10B)],
    channels := [("#c", ⟨"#c", [0, 1], none⟩)] }

/-- C10 (witness): with the trailing argument `hello` lacking the ':'
marker, the delivered text is `ello` — the first character of the user's
message is silently dropped. -/
theorem C10_witness :
    (handlePrivmsg c10State 0 ["PRIVMSG", "#c", "hello"]).2 =
      [(1, ":a!au@h PRIVMSG #c :ello")] := by
  have h := (C10_privmsgText c10State 0 c10A ["PRIVMSG", "#c", "hello"]
    (by decide) (by decide) (by decide)).1 ⟨"#c", [0, 1], none⟩
    (by decide) (by decide) (by decide)
  rw [h]
  decide

end ComicChat
